import Mathlib

/-!
# AuthorizationGo: role-based access control over four tables

A shallow embedding of `authorizationGo.go`.  The accessor keeps no state of
its own: every operation is a short sequence of gorm statements against the
tables `roles`, `permissions`, `role_permissions` and `user_roles`.  The
embedding therefore threads an explicit `Store` (the four tables) through
each operation.

Modelling decisions:

* a table is the list of its rows; `uint` and the surrogate keys are `Nat`;
* Go's `error` is `Option Error` (`none` is `nil`);
* a gorm statement returns a `Result`: the destination value after the call
  and the `Error` field.  The database is always available, so a statement
  reports `gorm.ErrRecordNotFound` or, where the embedding follows the read
  of a stored user id, a scan error;
* a user id is a Go `uint`, which the database keeps in a signed 64-bit
  column: an id of `2 ^ 63` or more is written, but the row that holds it
  cannot be read back into the `uint` field.  The lookups of `AssignRole`
  and of `DeleteRole`, which branch on `res.Error == nil`, follow this
  (`FirstRead`).  `CheckRole` issues the lookup of `AssignRole` and tests
  it for not-found only, so it answers the same with `First` and with
  `FirstRead` (`CheckRole_read`).  The list queries on `user_roles` (`Find`)
  are embedded as handing back every matching row;
* `First` orders by primary key and takes one row, `Find` on a slice takes
  every matching row and does not report not-found, `Delete` removes every
  matching row, `Create` inserts one row under a primary key that is new to
  the table.
-/

namespace AuthorizationGo

/-! ## Errors -/

/-- The `error` values the accessor handles: the five it declares,
`gorm.ErrRecordNotFound`, and `ErrScan`, the error of the database layer
when a stored value does not fit the Go field it is read into. -/
inductive Error where
  | ErrPermissionInUse
  | ErrPermissionNotFound
  | ErrRoleAlreadyAssigned
  | ErrRoleInUse
  | ErrRoleNotFound
  | ErrRecordNotFound
  | ErrScan
  deriving DecidableEq, Repr

/-- Go's `errors.Is(err, target)` on the error values above. -/
def errorsIs (err : Option Error) (target : Error) : Bool :=
  err == some target

/-! ## Rows and the store -/

/-- Modelled from the spec: the `Role` row type, whose declaration is not
among the sources (a surrogate identifier and a name; the code reads `ID`
and `Name`). -/
structure Role where
  ID : Nat
  Name : String
  deriving DecidableEq, Repr

/-- Modelled from the spec: the `Permission` row type, whose declaration is
not among the sources (a surrogate identifier and a name). -/
structure Permission where
  ID : Nat
  Name : String
  deriving DecidableEq, Repr

/-- Modelled from the spec: the `RolePermission` binding row, whose
declaration is not among the sources (role identifier, permission
identifier; the code reads `RoleID` and `PermissionID`). -/
structure RolePermission where
  ID : Nat
  RoleID : Nat
  PermissionID : Nat
  deriving DecidableEq, Repr

/-- Modelled from the spec: the `UserRole` binding row, whose declaration is
not among the sources (user identifier, role identifier; the code reads
`UserID` and `RoleID`). -/
structure UserRole where
  ID : Nat
  UserID : Nat
  RoleID : Nat
  deriving DecidableEq, Repr

/-- Go zero value of `Role`. -/
instance : Inhabited Role := ⟨⟨0, ""⟩⟩

/-- Go zero value of `Permission`. -/
instance : Inhabited Permission := ⟨⟨0, ""⟩⟩

/-- Go zero value of `RolePermission`. -/
instance : Inhabited RolePermission := ⟨⟨0, 0, 0⟩⟩

/-- Go zero value of `UserRole`. -/
instance : Inhabited UserRole := ⟨⟨0, 0, 0⟩⟩

/-- The database behind `a.DB`: the four tables. -/
structure Store where
  roles : List Role
  permissions : List Permission
  rolePermissions : List RolePermission
  userRoles : List UserRole
  deriving DecidableEq, Repr

/-- The store right after `migrateTables` on a fresh database. -/
def Store.empty : Store := ⟨[], [], [], []⟩

/-! ## The gorm statements the accessor issues -/

/-- What a gorm statement hands back: the destination after the call and
`res.Error`. -/
structure Result (α : Type) where
  value : α
  Error : Option Error

/-- The row with the smallest primary key (the earliest one on a tie). -/
def firstByID {α : Type} (key : α → Nat) : List α → Option α
  | [] => none
  | x :: xs =>
    match firstByID key xs with
    | none => some x
    | some y => if key x ≤ key y then some x else some y

/-- The statement `db.Where(cond).First(&dest)`: the matching row with the
smallest primary key; with no matching row the destination keeps its zero
value and the error is `gorm.ErrRecordNotFound`. -/
def First {α : Type} [Inhabited α] (key : α → Nat) (cond : α → Bool)
    (rows : List α) : Result α :=
  match firstByID key (rows.filter cond) with
  | some r => ⟨r, none⟩
  | none => ⟨default, some Error.ErrRecordNotFound⟩

/-- Whether the database can hand the row back: the user id, the one column
the caller supplies, must fit the signed 64-bit column it is kept in. -/
def UserRole.readable (ur : UserRole) : Bool :=
  decide (ur.UserID < 2 ^ 63)

/-- The statement `db.Where(cond).First(&dest)` on a table with a column the
caller supplies: as `First`, but when the row it loads is not readable the
scan fails, the error is `ErrScan` (which is not `gorm.ErrRecordNotFound`)
and the destination, which no caller reads then, is left at its zero
value. -/
def FirstRead {α : Type} [Inhabited α] (readable : α → Bool) (key : α → Nat)
    (cond : α → Bool) (rows : List α) : Result α :=
  let res := First key cond rows
  if res.Error = none ∧ readable res.value = false then
    ⟨default, some Error.ErrScan⟩
  else
    res

/-- The statement `db.Where(cond).Find(&dests)` on a slice: every matching
row, and no error when there is none. -/
def Find {α : Type} (cond : α → Bool) (rows : List α) : Result (List α) :=
  ⟨rows.filter cond, none⟩

/-- The statement `db.Where(cond).Delete(T{})`: the table without its
matching rows. -/
def Delete {α : Type} (cond : α → Bool) (rows : List α) : List α :=
  rows.filter (fun r => !cond r)

/-- The primary key the database gives to the next inserted row: one more
than the largest key in the table. -/
def nextID {α : Type} (key : α → Nat) (rows : List α) : Nat :=
  (rows.map key).foldr max 0 + 1

/-- The statement `db.Create(&row)`: the table with the row appended under a
new primary key (`mk` builds the row from its key). -/
def Create {α : Type} (key : α → Nat) (mk : Nat → α) (rows : List α) :
    Result (List α) :=
  ⟨rows ++ [mk (nextID key rows)], none⟩

/-! ## The accessor -/

/-- The lookup `a.DB.Where("name = ?", roleName).First(&role)`. -/
def firstRole (s : Store) (roleName : String) : Result Role :=
  First Role.ID (fun r => r.Name == roleName) s.roles

/-- The lookup `a.DB.Where("name = ?", permName).First(&perm)`. -/
def firstPermission (s : Store) (permName : String) : Result Permission :=
  First Permission.ID (fun p => p.Name == permName) s.permissions

/-- The accessor's `CreateRole`. -/
def CreateRole (s : Store) (roleName : String) : Option Error × Store :=
  let res := firstRole s roleName
  if res.Error ≠ none ∧ errorsIs res.Error Error.ErrRecordNotFound then
    let cRes := Create Role.ID (fun i => { ID := i, Name := roleName }) s.roles
    (none, { s with roles := cRes.value })
  else
    (res.Error, s)

/-- The accessor's `CreatePermission`. -/
def CreatePermission (s : Store) (permName : String) : Option Error × Store :=
  let res := firstPermission s permName
  if res.Error ≠ none ∧ errorsIs res.Error Error.ErrRecordNotFound then
    let cRes := Create Permission.ID (fun i => { ID := i, Name := permName })
      s.permissions
    (none, { s with permissions := cRes.value })
  else
    (res.Error, s)

/-- First loop of `AssignPermissions`: look every name up, collecting the
rows in `perms`; `none` is the early `return ErrPermissionNotFound`. -/
def collectPerms (s : Store) : List String → List Permission →
    Option (List Permission)
  | [], perms => some perms
  | permName :: rest, perms =>
    let pRes := firstPermission s permName
    if pRes.Error ≠ none ∧ errorsIs pRes.Error Error.ErrRecordNotFound then
      none
    else
      collectPerms s rest (perms ++ [pRes.value])

/-- Second loop of `AssignPermissions`: insert a `role_permissions` row for
every collected permission that the role is not yet bound to. -/
def insertRolePerms (role : Role) : List Permission → Store →
    Option Error × Store
  | [], s => (none, s)
  | perm :: rest, s =>
    let res := First RolePermission.ID
      (fun rp => rp.RoleID == role.ID && rp.PermissionID == perm.ID)
      s.rolePermissions
    if res.Error ≠ none then
      let cRes := Create RolePermission.ID
        (fun i => { ID := i, RoleID := role.ID, PermissionID := perm.ID })
        s.rolePermissions
      if cRes.Error ≠ none then
        (cRes.Error, s)
      else
        insertRolePerms role rest { s with rolePermissions := cRes.value }
    else
      insertRolePerms role rest s

/-- The accessor's `AssignPermissions`. -/
def AssignPermissions (s : Store) (roleName : String)
    (permNames : List String) : Option Error × Store :=
  let rRes := firstRole s roleName
  if rRes.Error ≠ none ∧ errorsIs rRes.Error Error.ErrRecordNotFound then
    (some Error.ErrRoleNotFound, s)
  else
    let role := rRes.value
    match collectPerms s permNames [] with
    | none => (some Error.ErrPermissionNotFound, s)
    | some perms => insertRolePerms role perms s

/-- The accessor's `AssignRole`. -/
def AssignRole (s : Store) (userID : Nat) (roleName : String) :
    Option Error × Store :=
  let res := firstRole s roleName
  if res.Error ≠ none ∧ errorsIs res.Error Error.ErrRecordNotFound then
    (some Error.ErrRoleNotFound, s)
  else
    let role := res.value
    let res2 := FirstRead UserRole.readable UserRole.ID
      (fun ur => ur.UserID == userID && ur.RoleID == role.ID) s.userRoles
    if res2.Error = none then
      (some Error.ErrRoleAlreadyAssigned, s)
    else
      let cRes := Create UserRole.ID
        (fun i => { ID := i, UserID := userID, RoleID := role.ID }) s.userRoles
      (none, { s with userRoles := cRes.value })

/-- The accessor's `CheckPermission`. -/
def CheckPermission (s : Store) (userID : Nat) (permName : String) :
    Bool × Option Error :=
  let res := Find (fun ur : UserRole => ur.UserID == userID) s.userRoles
  if res.Error ≠ none ∧ errorsIs res.Error Error.ErrRecordNotFound then
    (false, none)
  else
    let userRoles := res.value
    let roleIDs := userRoles.map UserRole.RoleID
    let res2 := firstPermission s permName
    if res2.Error ≠ none ∧ errorsIs res2.Error Error.ErrRecordNotFound then
      (false, some Error.ErrPermissionNotFound)
    else
      let perm := res2.value
      let res3 := First RolePermission.ID
        (fun rp => roleIDs.contains rp.RoleID && rp.PermissionID == perm.ID)
        s.rolePermissions
      if res3.Error ≠ none then
        (false, none)
      else
        (true, none)

/-- The accessor's `RevokeRole`. -/
def RevokeRole (s : Store) (userID : Nat) (roleName : String) :
    Option Error × Store :=
  let res := firstRole s roleName
  if res.Error ≠ none ∧ errorsIs res.Error Error.ErrRecordNotFound then
    (some Error.ErrRoleNotFound, s)
  else
    let role := res.value
    let userRoles := Delete
      (fun ur => ur.UserID == userID && ur.RoleID == role.ID) s.userRoles
    (none, { s with userRoles := userRoles })

/-- The loop of `RevokePermission`: one `Delete` per role the user holds. -/
def revokeLoop (perm : Permission) : List UserRole → List RolePermission →
    List RolePermission
  | [], rps => rps
  | r :: rest, rps =>
    revokeLoop perm rest
      (Delete (fun rp => rp.RoleID == r.RoleID && rp.PermissionID == perm.ID)
        rps)

/-- The accessor's `RevokePermission`. -/
def RevokePermission (s : Store) (userID : Nat) (permName : String) :
    Option Error × Store :=
  let res := Find (fun ur : UserRole => ur.UserID == userID) s.userRoles
  if res.Error ≠ none ∧ errorsIs res.Error Error.ErrRecordNotFound then
    (none, s)
  else
    let userRoles := res.value
    let res2 := firstPermission s permName
    if res2.Error ≠ none ∧ errorsIs res2.Error Error.ErrRecordNotFound then
      (some Error.ErrPermissionNotFound, s)
    else
      let perm := res2.value
      let rolePermissions := revokeLoop perm userRoles s.rolePermissions
      (none, { s with rolePermissions := rolePermissions })

/-- The accessor's `RevokeRolePermission`. -/
def RevokeRolePermission (s : Store) (roleName : String) (permName : String) :
    Option Error × Store :=
  let res := firstRole s roleName
  if res.Error ≠ none ∧ errorsIs res.Error Error.ErrRecordNotFound then
    (some Error.ErrRoleNotFound, s)
  else
    let role := res.value
    let res2 := firstPermission s permName
    if res2.Error ≠ none ∧ errorsIs res2.Error Error.ErrRecordNotFound then
      (some Error.ErrPermissionNotFound, s)
    else
      let perm := res2.value
      let rolePermissions := Delete
        (fun rp => rp.RoleID == role.ID && rp.PermissionID == perm.ID)
        s.rolePermissions
      (none, { s with rolePermissions := rolePermissions })

/-- The accessor's `DeleteRole`. -/
def DeleteRole (s : Store) (roleName : String) : Option Error × Store :=
  let res := firstRole s roleName
  if res.Error ≠ none ∧ errorsIs res.Error Error.ErrRecordNotFound then
    (some Error.ErrRoleNotFound, s)
  else
    let role := res.value
    let res2 := FirstRead UserRole.readable UserRole.ID
      (fun ur => ur.RoleID == role.ID) s.userRoles
    if res2.Error = none then
      (some Error.ErrRoleInUse, s)
    else
      let rolePermissions :=
        Delete (fun rp => rp.RoleID == role.ID) s.rolePermissions
      let roles := Delete (fun r => r.Name == roleName) s.roles
      (none, { s with rolePermissions := rolePermissions, roles := roles })

/-- The accessor's `DeletePermission`. -/
def DeletePermission (s : Store) (permName : String) : Option Error × Store :=
  let res := firstPermission s permName
  if res.Error ≠ none ∧ errorsIs res.Error Error.ErrRecordNotFound then
    (some Error.ErrPermissionNotFound, s)
  else
    let perm := res.value
    let res2 := First RolePermission.ID (fun rp => rp.PermissionID == perm.ID)
      s.rolePermissions
    if res2.Error = none then
      (some Error.ErrPermissionInUse, s)
    else
      let permissions := Delete (fun p => p.Name == permName) s.permissions
      (none, { s with permissions := permissions })

/-- The accessor's `CheckRole`. -/
def CheckRole (s : Store) (userID : Nat) (roleName : String) :
    Bool × Option Error :=
  let res := firstRole s roleName
  if res.Error ≠ none ∧ errorsIs res.Error Error.ErrRecordNotFound then
    (false, some Error.ErrRoleNotFound)
  else
    let role := res.value
    let res2 := First UserRole.ID
      (fun ur => ur.UserID == userID && ur.RoleID == role.ID) s.userRoles
    if res2.Error ≠ none ∧ errorsIs res2.Error Error.ErrRecordNotFound then
      (false, none)
    else
      (true, none)

/-- The accessor's `CheckRolePermission`. -/
def CheckRolePermission (s : Store) (roleName : String) (permName : String) :
    Bool × Option Error :=
  let res := firstRole s roleName
  if res.Error ≠ none ∧ errorsIs res.Error Error.ErrRecordNotFound then
    (false, some Error.ErrRoleNotFound)
  else
    let role := res.value
    let res2 := firstPermission s permName
    if res2.Error ≠ none ∧ errorsIs res2.Error Error.ErrRecordNotFound then
      (false, some Error.ErrPermissionNotFound)
    else
      let perm := res2.value
      let res3 := First RolePermission.ID
        (fun rp => rp.RoleID == role.ID && rp.PermissionID == perm.ID)
        s.rolePermissions
      if res3.Error ≠ none ∧ errorsIs res3.Error Error.ErrRecordNotFound then
        (false, none)
      else
        (true, none)

/-- One call of a mutating operation of the accessor, with its arguments. -/
inductive Op where
  | createRole (roleName : String)
  | createPermission (permName : String)
  | assignPermissions (roleName : String) (permNames : List String)
  | assignRole (userID : Nat) (roleName : String)
  | revokeRole (userID : Nat) (roleName : String)
  | revokePermission (userID : Nat) (permName : String)
  | revokeRolePermission (roleName : String) (permName : String)
  | deleteRole (roleName : String)
  | deletePermission (permName : String)
  deriving DecidableEq, Repr

/-- The store a call leaves behind, whatever error it returns. -/
def Op.apply (s : Store) : Op → Store
  | Op.createRole roleName => (CreateRole s roleName).2
  | Op.createPermission permName => (CreatePermission s permName).2
  | Op.assignPermissions roleName permNames =>
    (AssignPermissions s roleName permNames).2
  | Op.assignRole userID roleName => (AssignRole s userID roleName).2
  | Op.revokeRole userID roleName => (RevokeRole s userID roleName).2
  | Op.revokePermission userID permName =>
    (RevokePermission s userID permName).2
  | Op.revokeRolePermission roleName permName =>
    (RevokeRolePermission s roleName permName).2
  | Op.deleteRole roleName => (DeleteRole s roleName).2
  | Op.deletePermission permName => (DeletePermission s permName).2

/-- The store after a sequence of calls, made one after the other. -/
def run (ops : List Op) (s : Store) : Store :=
  ops.foldl Op.apply s

/-- No orphaned binding row: every `role_permissions` row references a role
and a permission of the store and every `user_roles` row references a role
of the store. -/
def noOrphans (s : Store) : Prop :=
  (∀ rp ∈ s.rolePermissions,
    (∃ r ∈ s.roles, r.ID = rp.RoleID) ∧
    (∃ p ∈ s.permissions, p.ID = rp.PermissionID)) ∧
  (∀ ur ∈ s.userRoles, ∃ r ∈ s.roles, r.ID = ur.RoleID)

instance (s : Store) : Decidable (noOrphans s) := by
  unfold noOrphans
  infer_instance

/-- Role names and permission names are unique in the store. -/
def uniqueNames (s : Store) : Prop :=
  (s.roles.map Role.Name).Nodup ∧ (s.permissions.map Permission.Name).Nodup

instance (s : Store) : Decidable (uniqueNames s) := by
  unfold uniqueNames
  infer_instance

/-- Every `user_roles` row of the store carries a user id below `2 ^ 63`,
one the database can hand back. -/
def readableUsers (s : Store) : Prop :=
  ∀ ur ∈ s.userRoles, ur.UserID < 2 ^ 63

instance (s : Store) : Decidable (readableUsers s) := by
  unfold readableUsers
  infer_instance

/-- The call hands `AssignRole` a user id below `2 ^ 63`; the calls that
write no user id are not restricted. -/
def Op.inRange : Op → Prop
  | Op.assignRole userID _ => userID < 2 ^ 63
  | _ => True

/-! ## Example stores -/

/-- The store of the worked example: `role-a` grants `permission-a` and
`permission-b` and is held by user 1; `permission-c` is granted by no role. -/
def demoStore : Store :=
  { roles := [⟨1, "role-a"⟩, ⟨2, "role-b"⟩],
    permissions := [⟨1, "permission-a"⟩, ⟨2, "permission-b"⟩,
      ⟨3, "permission-c"⟩],
    rolePermissions := [⟨1, 1, 1⟩, ⟨2, 1, 2⟩, ⟨3, 2, 1⟩],
    userRoles := [⟨1, 1, 1⟩] }

/-! ## Facts about the gorm statements -/

theorem firstByID_eq_none {α : Type} (key : α → Nat) (l : List α) :
    firstByID key l = none ↔ l = [] := by
  cases l with
  | nil => simp [firstByID]
  | cons x xs =>
    simp only [firstByID]
    cases firstByID key xs with
    | none => simp
    | some y => by_cases h : key x ≤ key y <;> simp [h]

theorem firstByID_some {α : Type} (key : α → Nat) :
    ∀ (l : List α) (r : α), firstByID key l = some r →
      r ∈ l ∧ ∀ q ∈ l, key r ≤ key q := by
  intro l
  induction l with
  | nil => intro r h; simp [firstByID] at h
  | cons x xs ih =>
    intro r h
    simp only [firstByID] at h
    cases hxs : firstByID key xs with
    | none =>
      rw [hxs] at h
      have hnil : xs = [] := (firstByID_eq_none key xs).1 hxs
      simp only [Option.some.injEq] at h
      subst h
      subst hnil
      simp
    | some y =>
      rw [hxs] at h
      obtain ⟨hy, hmin⟩ := ih y hxs
      by_cases hle : key x ≤ key y
      · simp only [hle, if_true, Option.some.injEq] at h
        subst h
        refine ⟨List.mem_cons_self _ _, ?_⟩
        intro q hq
        rcases List.mem_cons.1 hq with rfl | hq
        · exact le_refl _
        · exact le_trans hle (hmin q hq)
      · simp only [hle, if_false, Option.some.injEq] at h
        subst h
        refine ⟨List.mem_cons_of_mem _ hy, ?_⟩
        intro q hq
        rcases List.mem_cons.1 hq with rfl | hq
        · exact le_of_lt (not_le.1 hle)
        · exact hmin q hq

/-- A `First` with no matching row reports `gorm.ErrRecordNotFound` and
leaves the destination zeroed. -/
theorem First_notFound {α : Type} [Inhabited α] (key : α → Nat)
    (cond : α → Bool) (rows : List α) (h : ∀ r ∈ rows, cond r = false) :
    First key cond rows = ⟨default, some Error.ErrRecordNotFound⟩ := by
  have hnil : rows.filter cond = [] := by
    rw [List.filter_eq_nil_iff]
    intro r hr
    simp [h r hr]
  simp [First, hnil, firstByID]

/-- A `First` with a matching row reports no error and loads a matching row
of the table, one with the smallest primary key. -/
theorem First_found {α : Type} [Inhabited α] (key : α → Nat)
    (cond : α → Bool) (rows : List α) (h : ∃ r ∈ rows, cond r = true) :
    ∃ r, First key cond rows = ⟨r, none⟩ ∧ r ∈ rows ∧ cond r = true ∧
      ∀ q ∈ rows, cond q = true → key r ≤ key q := by
  obtain ⟨r0, hr0, hc0⟩ := h
  have hne : rows.filter cond ≠ [] := by
    intro hnil
    have : r0 ∈ rows.filter cond := List.mem_filter.2 ⟨hr0, hc0⟩
    rw [hnil] at this
    exact List.not_mem_nil _ this
  cases hf : firstByID key (rows.filter cond) with
  | none => exact absurd ((firstByID_eq_none key _).1 hf) hne
  | some r =>
    obtain ⟨hmem, hmin⟩ := firstByID_some key _ r hf
    obtain ⟨hr, hc⟩ := List.mem_filter.1 hmem
    refine ⟨r, ?_, hr, hc, ?_⟩
    · simp [First, hf]
    · intro q hq hcq
      exact hmin q (List.mem_filter.2 ⟨hq, hcq⟩)

/-- The two outcomes of a `First`. -/
theorem First_cases {α : Type} [Inhabited α] (key : α → Nat)
    (cond : α → Bool) (rows : List α) :
    ((∀ r ∈ rows, cond r = false) ∧
      First key cond rows = ⟨default, some Error.ErrRecordNotFound⟩) ∨
    (∃ r, First key cond rows = ⟨r, none⟩ ∧ r ∈ rows ∧ cond r = true ∧
      ∀ q ∈ rows, cond q = true → key r ≤ key q) := by
  by_cases h : ∃ r ∈ rows, cond r = true
  · exact Or.inr (First_found key cond rows h)
  · left
    have h2 : ∀ r ∈ rows, cond r = false := by
      intro r hr
      cases hc : cond r with
      | false => rfl
      | true => exact absurd ⟨r, hr, hc⟩ h
    exact ⟨h2, First_notFound key cond rows h2⟩

/-- A `FirstRead` with no matching row reports `gorm.ErrRecordNotFound`. -/
theorem FirstRead_notFound {α : Type} [Inhabited α] (readable : α → Bool)
    (key : α → Nat) (cond : α → Bool) (rows : List α)
    (h : ∀ r ∈ rows, cond r = false) :
    FirstRead readable key cond rows =
      ⟨default, some Error.ErrRecordNotFound⟩ := by
  simp [FirstRead, First_notFound key cond rows h]

/-- A `FirstRead` whose matching rows are all readable reports no error. -/
theorem FirstRead_readable {α : Type} [Inhabited α] (readable : α → Bool)
    (key : α → Nat) (cond : α → Bool) (rows : List α)
    (h : ∃ r ∈ rows, cond r = true)
    (hread : ∀ r ∈ rows, cond r = true → readable r = true) :
    (FirstRead readable key cond rows).Error = none := by
  obtain ⟨x, hx, hmem, hc, _⟩ := First_found key cond rows h
  simp [FirstRead, hx, hread x hmem hc]

/-- A `FirstRead` whose matching rows are all unreadable reports the scan
error. -/
theorem FirstRead_unreadable {α : Type} [Inhabited α] (readable : α → Bool)
    (key : α → Nat) (cond : α → Bool) (rows : List α)
    (h : ∃ r ∈ rows, cond r = true)
    (hun : ∀ r ∈ rows, cond r = true → readable r = false) :
    FirstRead readable key cond rows = ⟨default, some Error.ErrScan⟩ := by
  obtain ⟨x, hx, hmem, hc, _⟩ := First_found key cond rows h
  simp [FirstRead, hx, hun x hmem hc]

/-- Whether the loaded row is readable or not, `FirstRead` reports
`gorm.ErrRecordNotFound` exactly when `First` does: a caller that only tests
for not-found, as `CheckRole` does, takes the same branch with either. -/
theorem FirstRead_notFound_iff {α : Type} [Inhabited α] (readable : α → Bool)
    (key : α → Nat) (cond : α → Bool) (rows : List α) :
    errorsIs (FirstRead readable key cond rows).Error Error.ErrRecordNotFound =
      errorsIs (First key cond rows).Error Error.ErrRecordNotFound := by
  rcases First_cases key cond rows with ⟨_, he⟩ | ⟨x, he, _, _, _⟩
  · simp [FirstRead, he]
  · by_cases hr : readable x = true
    · simp [FirstRead, he, hr]
    · simp [FirstRead, he, hr, errorsIs]

/-- The two outcomes of the role lookup by name. -/
theorem firstRole_cases (s : Store) (n : String) :
    ((∀ r ∈ s.roles, r.Name ≠ n) ∧
      firstRole s n = ⟨default, some Error.ErrRecordNotFound⟩) ∨
    (∃ r, firstRole s n = ⟨r, none⟩ ∧ r ∈ s.roles ∧ r.Name = n ∧
      ∀ q ∈ s.roles, q.Name = n → r.ID ≤ q.ID) := by
  rcases First_cases Role.ID (fun r => r.Name == n) s.roles with
    ⟨h, he⟩ | ⟨r, he, hr, hc, hmin⟩
  · left
    refine ⟨?_, he⟩
    intro r hr
    simpa using h r hr
  · right
    refine ⟨r, he, hr, by simpa using hc, ?_⟩
    intro q hq hn
    exact hmin q hq (by simpa using hn)

/-- The two outcomes of the permission lookup by name. -/
theorem firstPermission_cases (s : Store) (n : String) :
    ((∀ p ∈ s.permissions, p.Name ≠ n) ∧
      firstPermission s n = ⟨default, some Error.ErrRecordNotFound⟩) ∨
    (∃ p, firstPermission s n = ⟨p, none⟩ ∧ p ∈ s.permissions ∧ p.Name = n ∧
      ∀ q ∈ s.permissions, q.Name = n → p.ID ≤ q.ID) := by
  rcases First_cases Permission.ID (fun p => p.Name == n) s.permissions with
    ⟨h, he⟩ | ⟨r, he, hr, hc, hmin⟩
  · left
    refine ⟨?_, he⟩
    intro r hr
    simpa using h r hr
  · right
    refine ⟨r, he, hr, by simpa using hc, ?_⟩
    intro q hq hn
    exact hmin q hq (by simpa using hn)

/-- The role lookup finds a row as soon as one carries the name. -/
theorem firstRole_found (s : Store) (n : String)
    (h : ∃ r ∈ s.roles, r.Name = n) :
    ∃ r, firstRole s n = ⟨r, none⟩ ∧ r ∈ s.roles ∧ r.Name = n ∧
      ∀ q ∈ s.roles, q.Name = n → r.ID ≤ q.ID := by
  rcases firstRole_cases s n with ⟨hno, _⟩ | hfound
  · obtain ⟨r, hr, hn⟩ := h
    exact absurd hn (hno r hr)
  · exact hfound

/-- The permission lookup finds a row as soon as one carries the name. -/
theorem firstPermission_found (s : Store) (n : String)
    (h : ∃ p ∈ s.permissions, p.Name = n) :
    ∃ p, firstPermission s n = ⟨p, none⟩ ∧ p ∈ s.permissions ∧ p.Name = n ∧
      ∀ q ∈ s.permissions, q.Name = n → p.ID ≤ q.ID := by
  rcases firstPermission_cases s n with ⟨hno, _⟩ | hfound
  · obtain ⟨r, hr, hn⟩ := h
    exact absurd hn (hno r hr)
  · exact hfound

/-- The role lookup loads a row with the key of the role named `n`: the
row named `n` with the smallest primary key. -/
theorem firstRole_of_min (s : Store) (n : String) (role : Role)
    (hmem : role ∈ s.roles) (hname : role.Name = n)
    (hmin : ∀ q ∈ s.roles, q.Name = n → role.ID ≤ q.ID) :
    ∃ r, firstRole s n = ⟨r, none⟩ ∧ r.ID = role.ID ∧ r ∈ s.roles ∧
      r.Name = n := by
  obtain ⟨r, he, hr, hn, hm⟩ := firstRole_found s n ⟨role, hmem, hname⟩
  exact ⟨r, he, le_antisymm (hm role hmem hname) (hmin r hr hn), hr, hn⟩

/-- The permission lookup loads a row with the key of the permission named
`n`: the row named `n` with the smallest primary key. -/
theorem firstPermission_of_min (s : Store) (n : String) (perm : Permission)
    (hmem : perm ∈ s.permissions) (hname : perm.Name = n)
    (hmin : ∀ q ∈ s.permissions, q.Name = n → perm.ID ≤ q.ID) :
    ∃ p, firstPermission s n = ⟨p, none⟩ ∧ p.ID = perm.ID ∧
      p ∈ s.permissions ∧ p.Name = n := by
  obtain ⟨r, he, hr, hn, hm⟩ := firstPermission_found s n ⟨perm, hmem, hname⟩
  exact ⟨r, he, le_antisymm (hm perm hmem hname) (hmin r hr hn), hr, hn⟩

/-- `AssignRole` on a missing role. -/
theorem AssignRole_notFound (s : Store) (u : Nat) (n : String)
    (h : firstRole s n = ⟨default, some Error.ErrRecordNotFound⟩) :
    AssignRole s u n = (some Error.ErrRoleNotFound, s) := by
  simp only [AssignRole, h, errorsIs]
  simp

/-- `AssignRole` once the role lookup has loaded `role` and the user, whose
id the database can hand back, already holds it. -/
theorem AssignRole_held (s : Store) (u : Nat) (n : String) (role : Role)
    (h : firstRole s n = ⟨role, none⟩) (hsmall : u < 2 ^ 63)
    (hheld : ∃ ur ∈ s.userRoles, ur.UserID = u ∧ ur.RoleID = role.ID) :
    AssignRole s u n = (some Error.ErrRoleAlreadyAssigned, s) := by
  obtain ⟨ur, hur, hu, hr⟩ := hheld
  have hx := FirstRead_readable UserRole.readable UserRole.ID
    (fun ur => ur.UserID == u && ur.RoleID == role.ID) s.userRoles
    ⟨ur, hur, by simp [hu, hr]⟩
    (by
      intro x _ hc
      simp only [Bool.and_eq_true, beq_iff_eq] at hc
      simp only [UserRole.readable, decide_eq_true_eq, hc.1]
      exact hsmall)
  simp only [AssignRole, h, hx, errorsIs]
  simp

/-- `AssignRole` once the role lookup has loaded `role` and the user already
holds it under an id of `2 ^ 63` or more: the lookup of the binding fails
with the scan error, which the guard `res.Error == nil` takes for "not
assigned", so another row is inserted and no error returned. -/
theorem AssignRole_unreadable (s : Store) (u : Nat) (n : String) (role : Role)
    (h : firstRole s n = ⟨role, none⟩) (hbig : 2 ^ 63 ≤ u)
    (hheld : ∃ ur ∈ s.userRoles, ur.UserID = u ∧ ur.RoleID = role.ID) :
    AssignRole s u n = (none, { s with userRoles := s.userRoles ++
      [{ ID := nextID UserRole.ID s.userRoles, UserID := u,
         RoleID := role.ID }] }) := by
  obtain ⟨ur, hur, hu, hr⟩ := hheld
  have hx := FirstRead_unreadable UserRole.readable UserRole.ID
    (fun ur => ur.UserID == u && ur.RoleID == role.ID) s.userRoles
    ⟨ur, hur, by simp [hu, hr]⟩
    (by
      intro x _ hc
      simp only [Bool.and_eq_true, beq_iff_eq] at hc
      simp only [UserRole.readable, decide_eq_false_iff_not, hc.1, not_lt]
      exact hbig)
  simp only [AssignRole, h, hx, errorsIs, Create]
  simp

/-- `AssignRole` once the role lookup has loaded `role` and the user does
not hold it yet. -/
theorem AssignRole_fresh (s : Store) (u : Nat) (n : String) (role : Role)
    (h : firstRole s n = ⟨role, none⟩)
    (hfree : ∀ ur ∈ s.userRoles, ur.UserID = u → ur.RoleID ≠ role.ID) :
    AssignRole s u n = (none, { s with userRoles := s.userRoles ++
      [{ ID := nextID UserRole.ID s.userRoles, UserID := u,
         RoleID := role.ID }] }) := by
  have hx := FirstRead_notFound UserRole.readable UserRole.ID
    (fun ur => ur.UserID == u && ur.RoleID == role.ID) s.userRoles
    (by
      intro ur hur
      by_cases hu : ur.UserID = u
      · simp [hu, hfree ur hur hu]
      · simp [hu])
  simp only [AssignRole, h, hx, errorsIs, Create]
  simp

/-- `DeleteRole` on a missing role. -/
theorem DeleteRole_notFound (s : Store) (n : String)
    (h : firstRole s n = ⟨default, some Error.ErrRecordNotFound⟩) :
    DeleteRole s n = (some Error.ErrRoleNotFound, s) := by
  simp only [DeleteRole, h, errorsIs]
  simp

/-- `DeleteRole` once the role lookup has loaded `role` and some user holds
it, the rows that bind it carrying user ids the database can hand back. -/
theorem DeleteRole_inUse (s : Store) (n : String) (role : Role)
    (h : firstRole s n = ⟨role, none⟩)
    (hread : ∀ ur ∈ s.userRoles, ur.RoleID = role.ID → ur.UserID < 2 ^ 63)
    (hheld : ∃ ur ∈ s.userRoles, ur.RoleID = role.ID) :
    DeleteRole s n = (some Error.ErrRoleInUse, s) := by
  obtain ⟨ur, hur, hr⟩ := hheld
  have hx := FirstRead_readable UserRole.readable UserRole.ID
    (fun ur => ur.RoleID == role.ID) s.userRoles ⟨ur, hur, by simp [hr]⟩
    (by
      intro x hxm hc
      simp only [beq_iff_eq] at hc
      simp only [UserRole.readable, decide_eq_true_eq]
      exact hread x hxm hc)
  simp only [DeleteRole, h, hx, errorsIs]
  simp

/-- `DeleteRole` once the role lookup has loaded `role` and the rows that
bind it all carry user ids of `2 ^ 63` or more: the in-use lookup fails with
the scan error, which the guard `res.Error == nil` takes for "not assigned",
so the role and its `role_permissions` rows are deleted and the `user_roles`
rows stay. -/
theorem DeleteRole_unreadable (s : Store) (n : String) (role : Role)
    (h : firstRole s n = ⟨role, none⟩)
    (hbig : ∀ ur ∈ s.userRoles, ur.RoleID = role.ID → 2 ^ 63 ≤ ur.UserID)
    (hheld : ∃ ur ∈ s.userRoles, ur.RoleID = role.ID) :
    DeleteRole s n = (none, { s with
      rolePermissions := Delete (fun rp => rp.RoleID == role.ID)
        s.rolePermissions,
      roles := Delete (fun r => r.Name == n) s.roles }) := by
  obtain ⟨ur, hur, hr⟩ := hheld
  have hx := FirstRead_unreadable UserRole.readable UserRole.ID
    (fun ur => ur.RoleID == role.ID) s.userRoles ⟨ur, hur, by simp [hr]⟩
    (by
      intro x hxm hc
      simp only [beq_iff_eq] at hc
      simp only [UserRole.readable, decide_eq_false_iff_not, not_lt]
      exact hbig x hxm hc)
  simp only [DeleteRole, h, hx, errorsIs]
  simp

/-- `DeleteRole` once the role lookup has loaded `role` and no user holds
it. -/
theorem DeleteRole_free (s : Store) (n : String) (role : Role)
    (h : firstRole s n = ⟨role, none⟩)
    (hfree : ∀ ur ∈ s.userRoles, ur.RoleID ≠ role.ID) :
    DeleteRole s n = (none, { s with
      rolePermissions := Delete (fun rp => rp.RoleID == role.ID)
        s.rolePermissions,
      roles := Delete (fun r => r.Name == n) s.roles }) := by
  have hx := FirstRead_notFound UserRole.readable UserRole.ID
    (fun ur => ur.RoleID == role.ID) s.userRoles
    (by intro ur hur; simp [hfree ur hur])
  simp only [DeleteRole, h, hx, errorsIs]
  simp

/-- `DeletePermission` on a missing permission. -/
theorem DeletePermission_notFound (s : Store) (n : String)
    (h : firstPermission s n = ⟨default, some Error.ErrRecordNotFound⟩) :
    DeletePermission s n = (some Error.ErrPermissionNotFound, s) := by
  simp only [DeletePermission, h, errorsIs]
  simp

/-- `DeletePermission` once the lookup has loaded `perm` and some role
grants it. -/
theorem DeletePermission_inUse (s : Store) (n : String) (perm : Permission)
    (h : firstPermission s n = ⟨perm, none⟩)
    (hheld : ∃ rp ∈ s.rolePermissions, rp.PermissionID = perm.ID) :
    DeletePermission s n = (some Error.ErrPermissionInUse, s) := by
  obtain ⟨rp, hrp, hr⟩ := hheld
  obtain ⟨x, hx, _⟩ := First_found RolePermission.ID
    (fun rp => rp.PermissionID == perm.ID) s.rolePermissions
    ⟨rp, hrp, by simp [hr]⟩
  simp only [DeletePermission, h, hx, errorsIs]
  simp

/-- `DeletePermission` once the lookup has loaded `perm` and no role grants
it. -/
theorem DeletePermission_free (s : Store) (n : String) (perm : Permission)
    (h : firstPermission s n = ⟨perm, none⟩)
    (hfree : ∀ rp ∈ s.rolePermissions, rp.PermissionID ≠ perm.ID) :
    DeletePermission s n = (none, { s with
      permissions := Delete (fun p => p.Name == n) s.permissions }) := by
  have hx := First_notFound RolePermission.ID
    (fun rp => rp.PermissionID == perm.ID) s.rolePermissions
    (by intro rp hrp; simp [hfree rp hrp])
  simp only [DeletePermission, h, hx, errorsIs]
  simp

/-- The first loop of `AssignPermissions` stops at a name that no permission
carries. -/
theorem collectPerms_none (s : Store) :
    ∀ (ps : List String) (acc : List Permission),
      (∃ n ∈ ps, ∀ q ∈ s.permissions, q.Name ≠ n) →
      collectPerms s ps acc = none := by
  intro ps
  induction ps with
  | nil => intro acc h; obtain ⟨n, hn, _⟩ := h; cases hn
  | cons a rest ih =>
    intro acc h
    rcases firstPermission_cases s a with ⟨_, he⟩ | ⟨q, he, hq, hn, _⟩
    · simp only [collectPerms, he, errorsIs]
      simp
    · have hrest : ∃ n ∈ rest, ∀ q ∈ s.permissions, q.Name ≠ n := by
        obtain ⟨n, hmem, hno⟩ := h
        rcases List.mem_cons.1 hmem with rfl | hmem
        · exact absurd hn (hno q hq)
        · exact ⟨n, hmem, hno⟩
      simp only [collectPerms, he, errorsIs]
      simpa using ih (acc ++ [q]) hrest

/-- The first loop of `AssignPermissions` collects, in order, the row each
name looks up when every name is carried by a permission. -/
theorem collectPerms_some (s : Store) :
    ∀ (ps : List String) (acc : List Permission),
      (∀ n ∈ ps, ∃ q ∈ s.permissions, q.Name = n) →
      collectPerms s ps acc =
        some (acc ++ ps.map (fun n => (firstPermission s n).value)) := by
  intro ps
  induction ps with
  | nil => intro acc _; simp [collectPerms]
  | cons a rest ih =>
    intro acc h
    obtain ⟨q, he, _⟩ := firstPermission_found s a (h a (List.mem_cons_self _ _))
    have hrest : ∀ n ∈ rest, ∃ q ∈ s.permissions, q.Name = n :=
      fun n hn => h n (List.mem_cons_of_mem _ hn)
    have hv : (firstPermission s a).value = q := by rw [he]
    simp only [collectPerms, he, errorsIs]
    simpa [hv] using ih (acc ++ [q]) hrest

/-- `AssignPermissions` on a missing role. -/
theorem AssignPermissions_notFound (s : Store) (n : String)
    (ps : List String)
    (h : firstRole s n = ⟨default, some Error.ErrRecordNotFound⟩) :
    AssignPermissions s n ps = (some Error.ErrRoleNotFound, s) := by
  simp only [AssignPermissions, h, errorsIs]
  simp

/-- `AssignPermissions` once the role lookup has loaded `role`. -/
theorem AssignPermissions_found (s : Store) (n : String) (ps : List String)
    (role : Role) (h : firstRole s n = ⟨role, none⟩) :
    AssignPermissions s n ps =
      match collectPerms s ps [] with
      | none => (some Error.ErrPermissionNotFound, s)
      | some perms => insertRolePerms role perms s := by
  simp only [AssignPermissions, h, errorsIs]
  simp

/-- `CreateRole` returns no error, inserts a role when none carries the name
and changes nothing otherwise. -/
theorem CreateRole_eq (s : Store) (n : String) :
    ((∀ q ∈ s.roles, q.Name ≠ n) ∧ CreateRole s n = (none, { s with
      roles := s.roles ++ [{ ID := nextID Role.ID s.roles, Name := n }] })) ∨
    ((∃ q ∈ s.roles, q.Name = n) ∧ CreateRole s n = (none, s)) := by
  rcases firstRole_cases s n with ⟨hno, he⟩ | ⟨q, he, hq, hn, _⟩
  · left
    refine ⟨hno, ?_⟩
    simp only [CreateRole, he, errorsIs, Create]
    simp
  · right
    refine ⟨⟨q, hq, hn⟩, ?_⟩
    simp only [CreateRole, he, errorsIs]
    simp

/-- `CreatePermission` returns no error, inserts a permission when none
carries the name and changes nothing otherwise. -/
theorem CreatePermission_eq (s : Store) (n : String) :
    ((∀ q ∈ s.permissions, q.Name ≠ n) ∧ CreatePermission s n = (none,
      { s with permissions := s.permissions ++
        [{ ID := nextID Permission.ID s.permissions, Name := n }] })) ∨
    ((∃ q ∈ s.permissions, q.Name = n) ∧ CreatePermission s n = (none, s)) := by
  rcases firstPermission_cases s n with ⟨hno, he⟩ | ⟨q, he, hq, hn, _⟩
  · left
    refine ⟨hno, ?_⟩
    simp only [CreatePermission, he, errorsIs, Create]
    simp
  · right
    refine ⟨⟨q, hq, hn⟩, ?_⟩
    simp only [CreatePermission, he, errorsIs]
    simp

/-- The loop of `RevokePermission` removes the rows that bind `perm` to a
role of one of the listed `user_roles` rows, and only those. -/
theorem revokeLoop_eq (perm : Permission) :
    ∀ (urs : List UserRole) (rps : List RolePermission),
      revokeLoop perm urs rps = rps.filter (fun rp =>
        !(rp.PermissionID == perm.ID &&
          urs.any (fun ur => ur.RoleID == rp.RoleID))) := by
  intro urs
  induction urs with
  | nil => intro rps; simp [revokeLoop]
  | cons a rest ih =>
    intro rps
    simp only [revokeLoop, Delete, ih, List.filter_filter]
    apply List.filter_congr
    intro rp _
    have hc : (a.RoleID == rp.RoleID) = (rp.RoleID == a.RoleID) := by
      rw [Bool.eq_iff_iff]
      simp only [beq_iff_eq]
      exact eq_comm
    simp only [List.any_cons, hc]
    generalize (rp.PermissionID == perm.ID) = b1
    generalize (rp.RoleID == a.RoleID) = b2
    generalize (rest.any fun ur => ur.RoleID == rp.RoleID) = b3
    cases b1 <;> cases b2 <;> cases b3 <;> rfl

/-- `RevokePermission` on a missing permission. -/
theorem RevokePermission_notFound (s : Store) (u : Nat) (n : String)
    (h : firstPermission s n = ⟨default, some Error.ErrRecordNotFound⟩) :
    RevokePermission s u n = (some Error.ErrPermissionNotFound, s) := by
  simp only [RevokePermission, h, errorsIs, Find]
  simp

/-- `RevokePermission` once the lookup has loaded `perm`. -/
theorem RevokePermission_found (s : Store) (u : Nat) (n : String)
    (perm : Permission) (h : firstPermission s n = ⟨perm, none⟩) :
    RevokePermission s u n = (none, { s with
      rolePermissions := s.rolePermissions.filter (fun rp =>
        !(rp.PermissionID == perm.ID &&
          s.userRoles.any
            (fun ur => ur.UserID == u && ur.RoleID == rp.RoleID))) }) := by
  simp only [RevokePermission, h, errorsIs, Find, revokeLoop_eq]
  simp [List.any_filter]

/-- The second loop of `AssignPermissions` returns no error and only
appends rows: each appended row binds `role` to one of the listed
permissions, and afterwards a pair `(role, pid)` that had no row and is
listed has exactly one, while every other pair of `role` keeps its count. -/
theorem insertRolePerms_spec (role : Role) :
    ∀ (perms : List Permission) (s : Store),
      ∃ added : List RolePermission,
        insertRolePerms role perms s =
          (none, { s with rolePermissions := s.rolePermissions ++ added }) ∧
        (∀ rp ∈ added, rp.RoleID = role.ID ∧
          ∃ perm ∈ perms, rp.PermissionID = perm.ID) ∧
        (∀ pid : Nat,
          (s.rolePermissions ++ added).countP
              (fun rp => rp.RoleID == role.ID && rp.PermissionID == pid) =
            if s.rolePermissions.countP
                (fun rp => rp.RoleID == role.ID && rp.PermissionID == pid) = 0 ∧
                ∃ perm ∈ perms, perm.ID = pid
            then 1
            else s.rolePermissions.countP
              (fun rp => rp.RoleID == role.ID && rp.PermissionID == pid)) := by
  intro perms
  induction perms with
  | nil =>
    intro s
    refine ⟨[], by simp [insertRolePerms], by simp, ?_⟩
    intro pid
    simp
  | cons perm rest ih =>
    intro s
    rcases First_cases RolePermission.ID
      (fun rp => rp.RoleID == role.ID && rp.PermissionID == perm.ID)
      s.rolePermissions with ⟨hno, he⟩ | ⟨x, he, hx, hc, _⟩
    · -- no row yet: one is inserted
      have hzero : s.rolePermissions.countP
          (fun rp => rp.RoleID == role.ID && rp.PermissionID == perm.ID) = 0 := by
        rw [List.countP_eq_zero]
        intro rp hrp
        simp [hno rp hrp]
      obtain ⟨added, h1, h2, h3⟩ := ih (Store.mk s.roles s.permissions
        (s.rolePermissions ++ [RolePermission.mk
          (nextID RolePermission.ID s.rolePermissions) role.ID perm.ID])
        s.userRoles)
      refine ⟨RolePermission.mk (nextID RolePermission.ID s.rolePermissions)
        role.ID perm.ID :: added, ?_, ?_, ?_⟩
      · simp only [insertRolePerms, he, Create]
        simp only [ne_eq, reduceCtorEq, not_false_eq_true, not_true_eq_false,
          if_true, if_false]
        rw [h1]
        simp
      · intro rp hrp
        rcases List.mem_cons.1 hrp with rfl | hrp
        · exact ⟨rfl, perm, List.mem_cons_self _ _, rfl⟩
        · obtain ⟨hr, q, hq, hpid⟩ := h2 rp hrp
          exact ⟨hr, q, List.mem_cons_of_mem _ hq, hpid⟩
      · intro pid
        have h3p := h3 pid
        simp only [List.append_assoc, List.singleton_append] at h3p
        rw [h3p]
        by_cases hp : pid = perm.ID
        · subst hp
          have hex : ∃ q ∈ perm :: rest, q.ID = perm.ID :=
            ⟨perm, List.mem_cons_self _ _, rfl⟩
          simp [List.countP_append, List.countP_cons, hzero, hex]
        · have hne : ¬ perm.ID = pid := fun e => hp e.symm
          simp [List.countP_append, List.countP_cons, hne]
    · -- a row exists: the permission is skipped
      have hpos : s.rolePermissions.countP
          (fun rp => rp.RoleID == role.ID && rp.PermissionID == perm.ID) ≠ 0 := by
        intro h0
        rw [List.countP_eq_zero] at h0
        exact h0 x hx hc
      obtain ⟨added, h1, h2, h3⟩ := ih s
      refine ⟨added, ?_, ?_, ?_⟩
      · simp only [insertRolePerms, he]
        simp only [ne_eq, not_true_eq_false, if_false]
        exact h1
      · intro rp hrp
        obtain ⟨hr, q, hq, hpid⟩ := h2 rp hrp
        exact ⟨hr, q, List.mem_cons_of_mem _ hq, hpid⟩
      · intro pid
        rw [h3 pid]
        by_cases hp : pid = perm.ID
        · subst hp
          simp [hpos]
        · have hne : ¬ perm.ID = pid := fun e => hp e.symm
          simp [hne]

/-- In a table whose (role, permission) pairs are pairwise distinct, a pair
is bound by at most one row. -/
theorem countP_pair_le_one (rps : List RolePermission)
    (h : (rps.map (fun rp => (rp.RoleID, rp.PermissionID))).Nodup)
    (rid pid : Nat) :
    rps.countP (fun rp => rp.RoleID == rid && rp.PermissionID == pid) ≤ 1 := by
  induction rps with
  | nil => simp
  | cons a l ih =>
    rw [List.map_cons, List.nodup_cons] at h
    have ihl := ih h.2
    rw [List.countP_cons]
    by_cases hp : (a.RoleID == rid && a.PermissionID == pid) = true
    · have hz : l.countP
          (fun rp => rp.RoleID == rid && rp.PermissionID == pid) = 0 := by
        rw [List.countP_eq_zero]
        intro x hx hpx
        apply h.1
        rw [List.mem_map]
        refine ⟨x, hx, ?_⟩
        simp only [Bool.and_eq_true, beq_iff_eq] at hp hpx
        rw [hp.1, hp.2, hpx.1, hpx.2]
      rw [hz, if_pos hp]
    · rw [if_neg hp]
      exact ihl

/-- `RevokeRole` on a missing role. -/
theorem RevokeRole_notFound (s : Store) (u : Nat) (n : String)
    (h : firstRole s n = ⟨default, some Error.ErrRecordNotFound⟩) :
    RevokeRole s u n = (some Error.ErrRoleNotFound, s) := by
  simp only [RevokeRole, h, errorsIs]
  simp

/-- `RevokeRole` once the role lookup has loaded `role`. -/
theorem RevokeRole_found (s : Store) (u : Nat) (n : String) (role : Role)
    (h : firstRole s n = ⟨role, none⟩) :
    RevokeRole s u n = (none, { s with
      userRoles := Delete
        (fun ur => ur.UserID == u && ur.RoleID == role.ID) s.userRoles }) := by
  simp only [RevokeRole, h, errorsIs]
  simp

/-- `RevokeRolePermission` on a missing role. -/
theorem RevokeRolePermission_roleNotFound (s : Store) (n p : String)
    (h : firstRole s n = ⟨default, some Error.ErrRecordNotFound⟩) :
    RevokeRolePermission s n p = (some Error.ErrRoleNotFound, s) := by
  simp only [RevokeRolePermission, h, errorsIs]
  simp

/-- `RevokeRolePermission` on an existing role and a missing permission. -/
theorem RevokeRolePermission_permNotFound (s : Store) (n p : String)
    (role : Role) (h : firstRole s n = ⟨role, none⟩)
    (hp : firstPermission s p = ⟨default, some Error.ErrRecordNotFound⟩) :
    RevokeRolePermission s n p = (some Error.ErrPermissionNotFound, s) := by
  simp only [RevokeRolePermission, h, hp, errorsIs]
  simp

/-- `RevokeRolePermission` once both lookups have loaded their rows. -/
theorem RevokeRolePermission_found (s : Store) (n p : String)
    (role : Role) (perm : Permission) (h : firstRole s n = ⟨role, none⟩)
    (hp : firstPermission s p = ⟨perm, none⟩) :
    RevokeRolePermission s n p = (none, { s with
      rolePermissions := Delete
        (fun rp => rp.RoleID == role.ID && rp.PermissionID == perm.ID)
        s.rolePermissions }) := by
  simp only [RevokeRolePermission, h, hp, errorsIs]
  simp

/-- A `Delete` only removes rows. -/
theorem mem_of_mem_Delete {α : Type} (cond : α → Bool) (rows : List α)
    (x : α) (h : x ∈ Delete cond rows) : x ∈ rows :=
  (List.mem_filter.1 h).1

/-- Binding rows stay unorphaned when binding rows are removed and roles and
permissions are kept. -/
theorem noOrphans_mono (s t : Store) (h : noOrphans s)
    (hroles : ∀ r ∈ s.roles, r ∈ t.roles)
    (hperms : ∀ p ∈ s.permissions, p ∈ t.permissions)
    (hrps : ∀ rp ∈ t.rolePermissions, rp ∈ s.rolePermissions)
    (hurs : ∀ ur ∈ t.userRoles, ur ∈ s.userRoles) :
    noOrphans t := by
  obtain ⟨h1, h2⟩ := h
  constructor
  · intro rp hrp
    obtain ⟨⟨r, hr, hrid⟩, ⟨p, hp, hpid⟩⟩ := h1 rp (hrps rp hrp)
    exact ⟨⟨r, hroles r hr, hrid⟩, ⟨p, hperms p hp, hpid⟩⟩
  · intro ur hur
    obtain ⟨r, hr, hrid⟩ := h2 ur (hurs ur hur)
    exact ⟨r, hroles r hr, hrid⟩

/-- Appending a row under a name that no row carries keeps names unique. -/
theorem nodup_names_append {α : Type} (name : α → String) (rows : List α)
    (x : α) (h : (rows.map name).Nodup) (hnew : ∀ q ∈ rows, name q ≠ name x) :
    ((rows ++ [x]).map name).Nodup := by
  rw [List.map_append, List.nodup_append]
  refine ⟨h, by simp, ?_⟩
  intro a ha hb
  simp only [List.map_cons, List.map_nil, List.mem_singleton] at hb
  rw [List.mem_map] at ha
  obtain ⟨q, hq, hqa⟩ := ha
  exact hnew q hq (by rw [hqa, hb])

/-- A `Delete` keeps names unique. -/
theorem nodup_names_Delete {α : Type} (name : α → String) (cond : α → Bool)
    (rows : List α) (h : (rows.map name).Nodup) :
    ((Delete cond rows).map name).Nodup :=
  List.Nodup.sublist (List.Sublist.map name (List.filter_sublist rows)) h

/-- With unique names, two rows of the table that carry the same name are
the same row. -/
theorem eq_of_name_eq {α : Type} (name : α → String) (rows : List α)
    (h : (rows.map name).Nodup) (x y : α) (hx : x ∈ rows) (hy : y ∈ rows)
    (hxy : name x = name y) : x = y :=
  List.inj_on_of_nodup_map h hx hy hxy

/-! ## Every operation keeps names unique and binding rows unorphaned -/

theorem CreateRole_preserves (s : Store) (n : String)
    (h : uniqueNames s ∧ noOrphans s) :
    uniqueNames (CreateRole s n).2 ∧ noOrphans (CreateRole s n).2 := by
  obtain ⟨⟨hr, hp⟩, ho⟩ := h
  rcases CreateRole_eq s n with ⟨hno, he⟩ | ⟨_, he⟩
  · rw [he]
    refine ⟨⟨nodup_names_append Role.Name s.roles _ hr hno, hp⟩, ?_⟩
    exact noOrphans_mono s _ ho (fun r hr => List.mem_append_left _ hr)
      (fun _ h => h) (fun _ h => h) (fun _ h => h)
  · rw [he]
    exact ⟨⟨hr, hp⟩, ho⟩

theorem CreatePermission_preserves (s : Store) (n : String)
    (h : uniqueNames s ∧ noOrphans s) :
    uniqueNames (CreatePermission s n).2 ∧
      noOrphans (CreatePermission s n).2 := by
  obtain ⟨⟨hr, hp⟩, ho⟩ := h
  rcases CreatePermission_eq s n with ⟨hno, he⟩ | ⟨_, he⟩
  · rw [he]
    refine ⟨⟨hr, nodup_names_append Permission.Name s.permissions _ hp hno⟩, ?_⟩
    exact noOrphans_mono s _ ho (fun _ h => h)
      (fun p hp => List.mem_append_left _ hp) (fun _ h => h) (fun _ h => h)
  · rw [he]
    exact ⟨⟨hr, hp⟩, ho⟩

/-- `AssignPermissions` either changes nothing or appends rows that bind the
looked-up role to permissions of the store. -/
theorem AssignPermissions_appends (s : Store) (n : String) (ps : List String) :
    (AssignPermissions s n ps).2 = s ∨
    ∃ (role : Role) (added : List RolePermission), role ∈ s.roles ∧
      (AssignPermissions s n ps).2 =
        { s with rolePermissions := s.rolePermissions ++ added } ∧
      ∀ rp ∈ added, rp.RoleID = role.ID ∧
        ∃ perm ∈ s.permissions, rp.PermissionID = perm.ID := by
  rcases firstRole_cases s n with ⟨_, he⟩ | ⟨r0, he, hr0, _, _⟩
  · left
    rw [AssignPermissions_notFound s n ps he]
  · by_cases hps : ∀ m ∈ ps, ∃ q ∈ s.permissions, q.Name = m
    · right
      obtain ⟨added, h1, h2, _⟩ := insertRolePerms_spec r0
        (ps.map (fun m => (firstPermission s m).value)) s
      refine ⟨r0, added, hr0, ?_, ?_⟩
      · rw [AssignPermissions_found s n ps r0 he, collectPerms_some s ps [] hps]
        simpa using congrArg Prod.snd h1
      · intro rp hrp
        obtain ⟨hr, q, hq, hpid⟩ := h2 rp hrp
        rw [List.mem_map] at hq
        obtain ⟨m, hm, hqm⟩ := hq
        obtain ⟨p1, hp1, hp1mem, _, _⟩ := firstPermission_found s m (hps m hm)
        have hq1 : q = p1 := by rw [← hqm, hp1]
        exact ⟨hr, p1, hp1mem, by rw [hpid, hq1]⟩
    · left
      have hmiss : ∃ m ∈ ps, ∀ q ∈ s.permissions, q.Name ≠ m := by
        by_contra hcon
        apply hps
        intro m hm
        by_contra hne
        apply hcon
        refine ⟨m, hm, ?_⟩
        intro q hq hqm
        exact hne ⟨q, hq, hqm⟩
      rw [AssignPermissions_found s n ps r0 he, collectPerms_none s ps [] hmiss]

theorem AssignPermissions_preserves (s : Store) (n : String)
    (ps : List String) (h : uniqueNames s ∧ noOrphans s) :
    uniqueNames (AssignPermissions s n ps).2 ∧
      noOrphans (AssignPermissions s n ps).2 := by
  rcases AssignPermissions_appends s n ps with he | ⟨role, added, hrole, he, hadd⟩
  · rw [he]
    exact h
  · rw [he]
    obtain ⟨hu, ⟨h1, h2⟩⟩ := h
    refine ⟨hu, ⟨?_, h2⟩⟩
    intro rp hrp
    rcases List.mem_append.1 hrp with hold | hnew
    · exact h1 rp hold
    · obtain ⟨hr, perm, hperm, hpid⟩ := hadd rp hnew
      exact ⟨⟨role, hrole, hr.symm⟩, ⟨perm, hperm, hpid.symm⟩⟩

/-- `AssignRole` either changes nothing or appends one row that binds the
user to the looked-up role. -/
theorem AssignRole_cases (s : Store) (u : Nat) (n : String) :
    (AssignRole s u n).2 = s ∨
    ∃ role ∈ s.roles, (AssignRole s u n).2 = { s with
      userRoles := s.userRoles ++
        [UserRole.mk (nextID UserRole.ID s.userRoles) u role.ID] } := by
  rcases firstRole_cases s n with ⟨_, he⟩ | ⟨r0, he, hr0, _, _⟩
  · left
    rw [AssignRole_notFound s u n he]
  · by_cases hheld : ∃ ur ∈ s.userRoles, ur.UserID = u ∧ ur.RoleID = r0.ID
    · by_cases hsmall : u < 2 ^ 63
      · left
        rw [AssignRole_held s u n r0 he hsmall hheld]
      · right
        refine ⟨r0, hr0, ?_⟩
        rw [AssignRole_unreadable s u n r0 he (not_lt.1 hsmall) hheld]
    · right
      have hfree : ∀ ur ∈ s.userRoles, ur.UserID = u → ur.RoleID ≠ r0.ID :=
        fun ur hur hu hr => hheld ⟨ur, hur, hu, hr⟩
      refine ⟨r0, hr0, ?_⟩
      rw [AssignRole_fresh s u n r0 he hfree]

theorem AssignRole_preserves (s : Store) (u : Nat) (n : String)
    (h : uniqueNames s ∧ noOrphans s) :
    uniqueNames (AssignRole s u n).2 ∧ noOrphans (AssignRole s u n).2 := by
  rcases AssignRole_cases s u n with he | ⟨r0, hr0, he⟩
  · rw [he]
    exact h
  · rw [he]
    obtain ⟨hu, ⟨h1, h2⟩⟩ := h
    refine ⟨hu, ⟨h1, ?_⟩⟩
    intro ur hur
    rcases List.mem_append.1 hur with hold | hnew
    · exact h2 ur hold
    · rw [List.mem_singleton] at hnew
      subst hnew
      exact ⟨r0, hr0, rfl⟩

theorem RevokeRole_preserves (s : Store) (u : Nat) (n : String)
    (h : uniqueNames s ∧ noOrphans s) :
    uniqueNames (RevokeRole s u n).2 ∧ noOrphans (RevokeRole s u n).2 := by
  rcases firstRole_cases s n with ⟨_, he⟩ | ⟨r0, he, _, _, _⟩
  · rw [RevokeRole_notFound s u n he]
    exact h
  · rw [RevokeRole_found s u n r0 he]
    exact ⟨h.1, noOrphans_mono s _ h.2 (fun _ h => h) (fun _ h => h)
      (fun _ h => h) (fun ur hur => mem_of_mem_Delete _ _ ur hur)⟩

theorem RevokePermission_preserves (s : Store) (u : Nat) (n : String)
    (h : uniqueNames s ∧ noOrphans s) :
    uniqueNames (RevokePermission s u n).2 ∧
      noOrphans (RevokePermission s u n).2 := by
  rcases firstPermission_cases s n with ⟨_, he⟩ | ⟨p0, he, _, _, _⟩
  · rw [RevokePermission_notFound s u n he]
    exact h
  · rw [RevokePermission_found s u n p0 he]
    exact ⟨h.1, noOrphans_mono s _ h.2 (fun _ h => h) (fun _ h => h)
      (fun rp hrp => (List.mem_filter.1 hrp).1) (fun _ h => h)⟩

theorem RevokeRolePermission_preserves (s : Store) (n p : String)
    (h : uniqueNames s ∧ noOrphans s) :
    uniqueNames (RevokeRolePermission s n p).2 ∧
      noOrphans (RevokeRolePermission s n p).2 := by
  rcases firstRole_cases s n with ⟨_, he⟩ | ⟨r0, he, _, _, _⟩
  · rw [RevokeRolePermission_roleNotFound s n p he]
    exact h
  · rcases firstPermission_cases s p with ⟨_, hp⟩ | ⟨p0, hp, _, _, _⟩
    · rw [RevokeRolePermission_permNotFound s n p r0 he hp]
      exact h
    · rw [RevokeRolePermission_found s n p r0 p0 he hp]
      exact ⟨h.1, noOrphans_mono s _ h.2 (fun _ h => h) (fun _ h => h)
        (fun rp hrp => mem_of_mem_Delete _ _ rp hrp) (fun _ h => h)⟩

/-- `DeleteRole` keeps names unique and binding rows unorphaned in a store
whose `user_roles` rows the database can hand back. -/
theorem DeleteRole_preserves (s : Store) (n : String)
    (h : uniqueNames s ∧ noOrphans s) (hread : readableUsers s) :
    uniqueNames (DeleteRole s n).2 ∧ noOrphans (DeleteRole s n).2 := by
  rcases firstRole_cases s n with ⟨_, he⟩ | ⟨r0, he, hr0, hn0, _⟩
  · rw [DeleteRole_notFound s n he]
    exact h
  · by_cases hheld : ∃ ur ∈ s.userRoles, ur.RoleID = r0.ID
    · rw [DeleteRole_inUse s n r0 he (fun ur hur _ => hread ur hur) hheld]
      exact h
    · have hfree : ∀ ur ∈ s.userRoles, ur.RoleID ≠ r0.ID :=
        fun ur hur hr => hheld ⟨ur, hur, hr⟩
      rw [DeleteRole_free s n r0 he hfree]
      obtain ⟨⟨hur, hup⟩, ⟨h1, h2⟩⟩ := h
      -- a role with another key than the deleted one survives the deletion
      have hkeep : ∀ r ∈ s.roles, r.ID ≠ r0.ID →
          r ∈ Delete (fun q => q.Name == n) s.roles := by
        intro r hr hne
        refine List.mem_filter.2 ⟨hr, ?_⟩
        have hname : r.Name ≠ n := by
          intro hrn
          apply hne
          rw [eq_of_name_eq Role.Name s.roles hur r r0 hr hr0 (by rw [hrn, hn0])]
        simpa using hname
      refine ⟨⟨nodup_names_Delete Role.Name _ s.roles hur, hup⟩, ⟨?_, ?_⟩⟩
      · intro rp hrp
        obtain ⟨hmem, hcond⟩ := List.mem_filter.1 hrp
        have hne : rp.RoleID ≠ r0.ID := by simpa using hcond
        obtain ⟨⟨r, hr, hrid⟩, hperm⟩ := h1 rp hmem
        exact ⟨⟨r, hkeep r hr (by rw [hrid]; exact hne), hrid⟩, hperm⟩
      · intro ur hurm
        obtain ⟨r, hr, hrid⟩ := h2 ur hurm
        exact ⟨r, hkeep r hr (by rw [hrid]; exact hfree ur hurm), hrid⟩

theorem DeletePermission_preserves (s : Store) (n : String)
    (h : uniqueNames s ∧ noOrphans s) :
    uniqueNames (DeletePermission s n).2 ∧
      noOrphans (DeletePermission s n).2 := by
  rcases firstPermission_cases s n with ⟨_, he⟩ | ⟨p0, he, hp0, hn0, _⟩
  · rw [DeletePermission_notFound s n he]
    exact h
  · by_cases hheld : ∃ rp ∈ s.rolePermissions, rp.PermissionID = p0.ID
    · rw [DeletePermission_inUse s n p0 he hheld]
      exact h
    · have hfree : ∀ rp ∈ s.rolePermissions, rp.PermissionID ≠ p0.ID :=
        fun rp hrp hr => hheld ⟨rp, hrp, hr⟩
      rw [DeletePermission_free s n p0 he hfree]
      obtain ⟨⟨hur, hup⟩, ⟨h1, h2⟩⟩ := h
      have hkeep : ∀ p ∈ s.permissions, p.ID ≠ p0.ID →
          p ∈ Delete (fun q => q.Name == n) s.permissions := by
        intro p hp hne
        refine List.mem_filter.2 ⟨hp, ?_⟩
        have hname : p.Name ≠ n := by
          intro hpn
          apply hne
          rw [eq_of_name_eq Permission.Name s.permissions hup p p0 hp hp0
            (by rw [hpn, hn0])]
        simpa using hname
      refine ⟨⟨hur, nodup_names_Delete Permission.Name _ s.permissions hup⟩,
        ⟨?_, h2⟩⟩
      intro rp hrp
      obtain ⟨hrole, ⟨p, hp, hpid⟩⟩ := h1 rp hrp
      exact ⟨hrole, ⟨p, hkeep p hp (by rw [hpid]; exact hfree rp hrp), hpid⟩⟩

/-- `DeleteRole` changes no `user_roles` row. -/
theorem DeleteRole_userRoles (s : Store) (n : String) :
    (DeleteRole s n).2.userRoles = s.userRoles := by
  simp only [DeleteRole]
  split
  · rfl
  · split <;> rfl

/-- A call leaves in `user_roles` rows that were there, or the row it has
just written for the user id it was handed. -/
theorem apply_userRoles (s : Store) (op : Op) :
    ∀ ur ∈ (Op.apply s op).userRoles, ur ∈ s.userRoles ∨
      ∃ u n, op = Op.assignRole u n ∧ ur.UserID = u := by
  intro ur hur
  cases op with
  | createRole n =>
    left
    simp only [Op.apply] at hur
    rcases CreateRole_eq s n with ⟨_, he⟩ | ⟨_, he⟩ <;> rw [he] at hur <;>
      exact hur
  | createPermission n =>
    left
    simp only [Op.apply] at hur
    rcases CreatePermission_eq s n with ⟨_, he⟩ | ⟨_, he⟩ <;> rw [he] at hur <;>
      exact hur
  | assignPermissions n ps =>
    left
    simp only [Op.apply] at hur
    rcases AssignPermissions_appends s n ps with he | ⟨_, _, _, he, _⟩ <;>
      rw [he] at hur <;> exact hur
  | assignRole u n =>
    simp only [Op.apply] at hur
    rcases AssignRole_cases s u n with he | ⟨r0, _, he⟩
    · left
      rw [he] at hur
      exact hur
    · rw [he] at hur
      rcases List.mem_append.1 hur with hold | hnew
      · exact Or.inl hold
      · right
        rw [List.mem_singleton] at hnew
        exact ⟨u, n, rfl, by rw [hnew]⟩
  | revokeRole u n =>
    left
    simp only [Op.apply] at hur
    rcases firstRole_cases s n with ⟨_, he⟩ | ⟨r0, he, _, _, _⟩
    · rw [RevokeRole_notFound s u n he] at hur
      exact hur
    · rw [RevokeRole_found s u n r0 he] at hur
      exact mem_of_mem_Delete _ _ ur hur
  | revokePermission u n =>
    left
    simp only [Op.apply] at hur
    rcases firstPermission_cases s n with ⟨_, he⟩ | ⟨p0, he, _, _, _⟩
    · rw [RevokePermission_notFound s u n he] at hur
      exact hur
    · rw [RevokePermission_found s u n p0 he] at hur
      exact hur
  | revokeRolePermission n p =>
    left
    simp only [Op.apply] at hur
    rcases firstRole_cases s n with ⟨_, he⟩ | ⟨r0, he, _, _, _⟩
    · rw [RevokeRolePermission_roleNotFound s n p he] at hur
      exact hur
    · rcases firstPermission_cases s p with ⟨_, hp⟩ | ⟨p0, hp, _, _, _⟩
      · rw [RevokeRolePermission_permNotFound s n p r0 he hp] at hur
        exact hur
      · rw [RevokeRolePermission_found s n p r0 p0 he hp] at hur
        exact hur
  | deleteRole n =>
    left
    simp only [Op.apply] at hur
    rw [DeleteRole_userRoles s n] at hur
    exact hur
  | deletePermission n =>
    left
    simp only [Op.apply] at hur
    rcases firstPermission_cases s n with ⟨_, he⟩ | ⟨p0, he, _, _, _⟩
    · rw [DeletePermission_notFound s n he] at hur
      exact hur
    · by_cases hheld : ∃ rp ∈ s.rolePermissions, rp.PermissionID = p0.ID
      · rw [DeletePermission_inUse s n p0 he hheld] at hur
        exact hur
      · rw [DeletePermission_free s n p0 he
          (fun rp hrp hr => hheld ⟨rp, hrp, hr⟩)] at hur
        exact hur

/-- A call that hands `AssignRole` no user id of `2 ^ 63` or more keeps
names unique, binding rows unorphaned and user ids readable. -/
theorem apply_preserves (s : Store) (op : Op)
    (h : uniqueNames s ∧ noOrphans s) (hread : readableUsers s)
    (hop : op.inRange) :
    (uniqueNames (Op.apply s op) ∧ noOrphans (Op.apply s op)) ∧
      readableUsers (Op.apply s op) := by
  constructor
  · cases op with
    | createRole n => exact CreateRole_preserves s n h
    | createPermission n => exact CreatePermission_preserves s n h
    | assignPermissions n ps => exact AssignPermissions_preserves s n ps h
    | assignRole u n => exact AssignRole_preserves s u n h
    | revokeRole u n => exact RevokeRole_preserves s u n h
    | revokePermission u n => exact RevokePermission_preserves s u n h
    | revokeRolePermission n p => exact RevokeRolePermission_preserves s n p h
    | deleteRole n => exact DeleteRole_preserves s n h hread
    | deletePermission n => exact DeletePermission_preserves s n h
  · intro ur hur
    rcases apply_userRoles s op ur hur with hold | ⟨u, n, hopeq, hu⟩
    · exact hread ur hold
    · subst hopeq
      rw [hu]
      exact hop

/-- A sequence of calls that hand `AssignRole` no user id of `2 ^ 63` or more
keeps names unique, binding rows unorphaned and user ids readable. -/
theorem run_preserves (ops : List Op) :
    ∀ s : Store, uniqueNames s ∧ noOrphans s → readableUsers s →
      (∀ op ∈ ops, op.inRange) →
      (uniqueNames (run ops s) ∧ noOrphans (run ops s)) ∧
        readableUsers (run ops s) := by
  induction ops with
  | nil => intro s h hread _; exact ⟨h, hread⟩
  | cons op rest ih =>
    intro s h hread hops
    obtain ⟨h1, hread1⟩ := apply_preserves s op h hread
      (hops op (List.mem_cons_self _ _))
    exact ih (Op.apply s op) h1 hread1
      (fun o ho => hops o (List.mem_cons_of_mem _ ho))

/-! ## Facts about the checks and about `GetUserRoles` -/

/-- `CheckRole` on a missing role. -/
theorem CheckRole_notFound (s : Store) (u : Nat) (n : String)
    (h : firstRole s n = ⟨default, some Error.ErrRecordNotFound⟩) :
    CheckRole s u n = (false, some Error.ErrRoleNotFound) := by
  simp only [CheckRole, h, errorsIs]
  simp

/-- `CheckRole` once the role lookup has loaded `role` and the user holds
it. -/
theorem CheckRole_held (s : Store) (u : Nat) (n : String) (role : Role)
    (h : firstRole s n = ⟨role, none⟩)
    (hheld : ∃ ur ∈ s.userRoles, ur.UserID = u ∧ ur.RoleID = role.ID) :
    CheckRole s u n = (true, none) := by
  obtain ⟨ur, hur, hu, hr⟩ := hheld
  obtain ⟨x, hx, _⟩ := First_found UserRole.ID
    (fun ur => ur.UserID == u && ur.RoleID == role.ID) s.userRoles
    ⟨ur, hur, by simp [hu, hr]⟩
  simp only [CheckRole, h, hx, errorsIs]
  simp

/-- `CheckRole` once the role lookup has loaded `role` and the user does not
hold it. -/
theorem CheckRole_free (s : Store) (u : Nat) (n : String) (role : Role)
    (h : firstRole s n = ⟨role, none⟩)
    (hfree : ∀ ur ∈ s.userRoles, ur.UserID = u → ur.RoleID ≠ role.ID) :
    CheckRole s u n = (false, none) := by
  have hx := First_notFound UserRole.ID
    (fun ur => ur.UserID == u && ur.RoleID == role.ID) s.userRoles
    (by
      intro ur hur
      by_cases hu : ur.UserID = u
      · simp [hu, hfree ur hur hu]
      · simp [hu])
  simp only [CheckRole, h, hx, errorsIs]
  simp

/-- `CheckRole` once the role lookup has loaded `role`: no error, and true
exactly when a `user_roles` row binds the user to `role`. -/
theorem CheckRole_found (s : Store) (u : Nat) (n : String) (role : Role)
    (h : firstRole s n = ⟨role, none⟩) :
    (CheckRole s u n).2 = none ∧
    ((CheckRole s u n).1 = true ↔
      ∃ ur ∈ s.userRoles, ur.UserID = u ∧ ur.RoleID = role.ID) := by
  by_cases hheld : ∃ ur ∈ s.userRoles, ur.UserID = u ∧ ur.RoleID = role.ID
  · rw [CheckRole_held s u n role h hheld]
    exact ⟨rfl, fun _ => hheld, fun _ => rfl⟩
  · have hfree : ∀ ur ∈ s.userRoles, ur.UserID = u → ur.RoleID ≠ role.ID :=
      fun ur hur hu hr => hheld ⟨ur, hur, hu, hr⟩
    rw [CheckRole_free s u n role h hfree]
    refine ⟨rfl, ?_, fun hex => absurd hex hheld⟩
    intro hb
    cases hb

/-- `CheckRole` answers the same when its lookup of the binding is read
through `FirstRead`: a scan error is not `gorm.ErrRecordNotFound`, so a row
that is found and cannot be read is reported as held, as a row that can. -/
theorem CheckRole_read (s : Store) (u : Nat) (n : String) :
    CheckRole s u n =
      if (firstRole s n).Error ≠ none ∧
          errorsIs (firstRole s n).Error Error.ErrRecordNotFound then
        (false, some Error.ErrRoleNotFound)
      else if (FirstRead UserRole.readable UserRole.ID
            (fun ur => ur.UserID == u && ur.RoleID == (firstRole s n).value.ID)
            s.userRoles).Error ≠ none ∧
          errorsIs (FirstRead UserRole.readable UserRole.ID
            (fun ur => ur.UserID == u && ur.RoleID == (firstRole s n).value.ID)
            s.userRoles).Error Error.ErrRecordNotFound then
        (false, none)
      else
        (true, none) := by
  have hiff := FirstRead_notFound_iff UserRole.readable UserRole.ID
    (fun ur => ur.UserID == u && ur.RoleID == (firstRole s n).value.ID)
    s.userRoles
  have hne : ∀ e : Option Error,
      (e ≠ none ∧ errorsIs e Error.ErrRecordNotFound = true) ↔
        errorsIs e Error.ErrRecordNotFound = true := by
    intro e
    constructor
    · exact fun h => h.2
    · intro h
      refine ⟨?_, h⟩
      intro he
      rw [he] at h
      simp [errorsIs] at h
  simp only [CheckRole, hne]
  rw [hiff]

/-- `CheckRolePermission` on a missing role. -/
theorem CheckRolePermission_roleNotFound (s : Store) (n p : String)
    (h : firstRole s n = ⟨default, some Error.ErrRecordNotFound⟩) :
    CheckRolePermission s n p = (false, some Error.ErrRoleNotFound) := by
  simp only [CheckRolePermission, h, errorsIs]
  simp

/-- `CheckRolePermission` on an existing role and a missing permission. -/
theorem CheckRolePermission_permNotFound (s : Store) (n p : String)
    (role : Role) (h : firstRole s n = ⟨role, none⟩)
    (hp : firstPermission s p = ⟨default, some Error.ErrRecordNotFound⟩) :
    CheckRolePermission s n p = (false, some Error.ErrPermissionNotFound) := by
  simp only [CheckRolePermission, h, hp, errorsIs]
  simp

/-- `CheckRolePermission` once both lookups have loaded their rows and a row
binds them. -/
theorem CheckRolePermission_bound (s : Store) (n p : String) (role : Role)
    (perm : Permission) (h : firstRole s n = ⟨role, none⟩)
    (hp : firstPermission s p = ⟨perm, none⟩)
    (hb : ∃ rp ∈ s.rolePermissions,
      rp.RoleID = role.ID ∧ rp.PermissionID = perm.ID) :
    CheckRolePermission s n p = (true, none) := by
  obtain ⟨rp, hrp, hr, hpid⟩ := hb
  obtain ⟨x, hx, _⟩ := First_found RolePermission.ID
    (fun rp => rp.RoleID == role.ID && rp.PermissionID == perm.ID)
    s.rolePermissions ⟨rp, hrp, by simp [hr, hpid]⟩
  simp only [CheckRolePermission, h, hp, hx, errorsIs]
  simp

/-- `CheckRolePermission` once both lookups have loaded their rows and no row
binds them. -/
theorem CheckRolePermission_unbound (s : Store) (n p : String) (role : Role)
    (perm : Permission) (h : firstRole s n = ⟨role, none⟩)
    (hp : firstPermission s p = ⟨perm, none⟩)
    (hfree : ∀ rp ∈ s.rolePermissions,
      rp.RoleID = role.ID → rp.PermissionID ≠ perm.ID) :
    CheckRolePermission s n p = (false, none) := by
  have hx := First_notFound RolePermission.ID
    (fun rp => rp.RoleID == role.ID && rp.PermissionID == perm.ID)
    s.rolePermissions
    (by
      intro rp hrp
      by_cases hr : rp.RoleID = role.ID
      · simp [hr, hfree rp hrp hr]
      · simp [hr])
  simp only [CheckRolePermission, h, hp, hx, errorsIs]
  simp

/-- `CheckPermission` on a missing permission, whatever roles the user
holds. -/
theorem CheckPermission_notFound (s : Store) (u : Nat) (n : String)
    (h : firstPermission s n = ⟨default, some Error.ErrRecordNotFound⟩) :
    CheckPermission s u n = (false, some Error.ErrPermissionNotFound) := by
  simp only [CheckPermission, h, errorsIs, Find]
  simp

/-- With a user id below `2 ^ 63`: when role `r` exists and user `u` does not
hold it, the first `AssignRole u r` returns no error and the second one
returns `ErrRoleAlreadyAssigned` and leaves the store unchanged; afterwards
the store holds exactly one `user_roles` row for `(u, r)`.  Here `role` is
the row of `r`: the role named `r` with the smallest primary key. -/
theorem AssignRole_twice_inRange (s : Store) (u : Nat) (r : String)
    (role : Role) (hsmall : u < 2 ^ 63)
    (hmem : role ∈ s.roles) (hname : role.Name = r)
    (hmin : ∀ q ∈ s.roles, q.Name = r → role.ID ≤ q.ID)
    (hfree : ∀ ur ∈ s.userRoles, ur.UserID = u → ur.RoleID ≠ role.ID) :
    (AssignRole s u r).1 = none ∧
    (AssignRole (AssignRole s u r).2 u r).1 =
      some Error.ErrRoleAlreadyAssigned ∧
    (AssignRole (AssignRole s u r).2 u r).2 = (AssignRole s u r).2 ∧
    ((AssignRole (AssignRole s u r).2 u r).2.userRoles.countP
      (fun ur => ur.UserID == u && ur.RoleID == role.ID)) = 1 := by
  obtain ⟨r0, he, hid, _, _⟩ := firstRole_of_min s r role hmem hname hmin
  have h1 := AssignRole_fresh s u r r0 he (by rw [hid]; exact hfree)
  have he2 : firstRole (AssignRole s u r).2 r = ⟨r0, none⟩ := by
    rw [h1]; exact he
  have h2 := AssignRole_held (AssignRole s u r).2 u r r0 he2 hsmall (by
    rw [h1]
    exact ⟨⟨nextID UserRole.ID s.userRoles, u, r0.ID⟩, by simp, rfl, rfl⟩)
  refine ⟨by rw [h1], by rw [h2], by rw [h2], ?_⟩
  rw [h2, h1]
  have hzero : s.userRoles.countP
      (fun ur => ur.UserID == u && ur.RoleID == role.ID) = 0 := by
    rw [List.countP_eq_zero]
    intro ur hur
    by_cases hu : ur.UserID = u
    · simp [hu, hfree ur hur hu]
    · simp [hu]
  simp [List.countP_append, hzero, hid]

/-- User 2 of the example store takes `role-a` twice. -/
theorem AssignRole_twice_inRange_example :
    (AssignRole demoStore 2 "role-a").1 = none ∧
    (AssignRole (AssignRole demoStore 2 "role-a").2 2 "role-a").1 =
      some Error.ErrRoleAlreadyAssigned ∧
    (AssignRole (AssignRole demoStore 2 "role-a").2 2 "role-a").2 =
      (AssignRole demoStore 2 "role-a").2 ∧
    ((AssignRole (AssignRole demoStore 2 "role-a").2 2
      "role-a").2.userRoles.countP
      (fun ur => ur.UserID == 2 && ur.RoleID == 1)) = 1 :=
  AssignRole_twice_inRange demoStore 2 "role-a" ⟨1, "role-a"⟩ (by decide)
    (by decide) rfl (by decide) (by decide)

/-- `DeleteRole r` returns `ErrRoleNotFound` when no role is named `r`, and
`ErrRoleInUse` when the role exists and the `user_roles` rows that reference
it, of which there is at least one, carry user ids below `2 ^ 63`; in both
cases the store is unchanged.  Here `role` is the row of `r`: the role named
`r` with the smallest primary key. -/
theorem DeleteRole_guards_inRange (s : Store) (r : String) :
    ((∀ q ∈ s.roles, q.Name ≠ r) →
      DeleteRole s r = (some Error.ErrRoleNotFound, s)) ∧
    (∀ role ∈ s.roles, role.Name = r →
      (∀ q ∈ s.roles, q.Name = r → role.ID ≤ q.ID) →
      (∀ ur ∈ s.userRoles, ur.RoleID = role.ID → ur.UserID < 2 ^ 63) →
      (∃ ur ∈ s.userRoles, ur.RoleID = role.ID) →
      DeleteRole s r = (some Error.ErrRoleInUse, s)) := by
  constructor
  · intro hno
    rcases firstRole_cases s r with ⟨_, he⟩ | ⟨q, _, hq, hn, _⟩
    · exact DeleteRole_notFound s r he
    · exact absurd hn (hno q hq)
  · intro role hmem hname hmin hread hheld
    obtain ⟨r0, he, hid, _, _⟩ := firstRole_of_min s r role hmem hname hmin
    exact DeleteRole_inUse s r r0 he (by rw [hid]; exact hread)
      (by rw [hid]; exact hheld)

/-- In the example store `role-aa` is missing and `role-a` is held by
user 1. -/
theorem DeleteRole_guards_inRange_example :
    DeleteRole demoStore "role-aa" = (some Error.ErrRoleNotFound, demoStore) ∧
    DeleteRole demoStore "role-a" = (some Error.ErrRoleInUse, demoStore) :=
  ⟨(DeleteRole_guards_inRange demoStore "role-aa").1 (by decide),
   (DeleteRole_guards_inRange demoStore "role-a").2 ⟨1, "role-a"⟩ (by decide)
     rfl (by decide) (by decide) (by decide)⟩

/-- In every store reached from the empty store by a sequence of calls that
hand `AssignRole` no user id of `2 ^ 63` or more, every `role_permissions`
row references a role and a permission of the store and every `user_roles`
row references a role of the store. -/
theorem reachable_noOrphans_inRange (ops : List Op)
    (hops : ∀ op ∈ ops, op.inRange) :
    (∀ rp ∈ (run ops Store.empty).rolePermissions,
      (∃ r ∈ (run ops Store.empty).roles, r.ID = rp.RoleID) ∧
      (∃ p ∈ (run ops Store.empty).permissions, p.ID = rp.PermissionID)) ∧
    (∀ ur ∈ (run ops Store.empty).userRoles,
      ∃ r ∈ (run ops Store.empty).roles, r.ID = ur.RoleID) := by
  have hinit : uniqueNames Store.empty ∧ noOrphans Store.empty := by
    refine ⟨⟨?_, ?_⟩, ⟨?_, ?_⟩⟩
    · exact List.nodup_nil
    · exact List.nodup_nil
    · intro rp hrp; cases hrp
    · intro ur hur; cases hur
  have hread : readableUsers Store.empty := by
    intro ur hur
    cases hur
  exact (run_preserves ops Store.empty hinit hread hops).1.2

/-! ## The claims -/

/-- C2, at the user id `2 ^ 63`: `role-a` exists in the example store and
user `2 ^ 63` does not hold it, yet both consecutive calls of `AssignRole`
return no error, the second one changes the store, and afterwards two
`user_roles` rows bind the user to the role.  The claim asks for
`ErrRoleAlreadyAssigned` on the second call and exactly one row. -/
theorem AssignRole_twice_highbit :
    (∃ role ∈ demoStore.roles, role.Name = "role-a" ∧ role.ID = 1) ∧
    (∀ ur ∈ demoStore.userRoles, ur.UserID = 2 ^ 63 → ur.RoleID ≠ 1) ∧
    (AssignRole demoStore (2 ^ 63) "role-a").1 = none ∧
    (AssignRole (AssignRole demoStore (2 ^ 63) "role-a").2 (2 ^ 63)
      "role-a").1 = none ∧
    (AssignRole (AssignRole demoStore (2 ^ 63) "role-a").2 (2 ^ 63)
      "role-a").2 ≠ (AssignRole demoStore (2 ^ 63) "role-a").2 ∧
    ((AssignRole (AssignRole demoStore (2 ^ 63) "role-a").2 (2 ^ 63)
      "role-a").2.userRoles.countP
      (fun ur => ur.UserID == 2 ^ 63 && ur.RoleID == 1)) = 2 := by
  decide

/-- C3, with a binding of the user id `2 ^ 63`: after `AssignRole (2 ^ 63)
"role-b"` on the example store, `role-b` exists and a `user_roles` row
references it, yet `DeleteRole "role-b"` returns no error and deletes the
role and its `role_permissions` row, the `user_roles` row staying behind.
The claim asks for `ErrRoleInUse` and an unchanged store. -/
theorem DeleteRole_inUse_highbit :
    (AssignRole demoStore (2 ^ 63) "role-b").2 =
      { demoStore with userRoles := [⟨1, 1, 1⟩, ⟨2, 2 ^ 63, 2⟩] } ∧
    (∃ ur ∈ (AssignRole demoStore (2 ^ 63) "role-b").2.userRoles,
      ur.RoleID = 2) ∧
    DeleteRole (AssignRole demoStore (2 ^ 63) "role-b").2 "role-b" =
      (none, { roles := [⟨1, "role-a"⟩],
               permissions := demoStore.permissions,
               rolePermissions := [⟨1, 1, 1⟩, ⟨2, 1, 2⟩],
               userRoles := [⟨1, 1, 1⟩, ⟨2, 2 ^ 63, 2⟩] }) := by
  decide

/-- C4: when role `r` exists and no `user_roles` row references it,
`DeleteRole r` returns no error; afterwards no role is named `r` and no
`role_permissions` row references the deleted role; permissions,
`user_roles`, the `role_permissions` rows of other roles and the roles of
other names are unchanged.  Here `role` is the row of `r`: the role named
`r` with the smallest primary key. -/
theorem DeleteRole_removes (s : Store) (r : String) (role : Role)
    (hmem : role ∈ s.roles) (hname : role.Name = r)
    (hmin : ∀ q ∈ s.roles, q.Name = r → role.ID ≤ q.ID)
    (hfree : ∀ ur ∈ s.userRoles, ur.RoleID ≠ role.ID) :
    (DeleteRole s r).1 = none ∧
    (∀ q ∈ (DeleteRole s r).2.roles, q.Name ≠ r) ∧
    (∀ rp ∈ (DeleteRole s r).2.rolePermissions, rp.RoleID ≠ role.ID) ∧
    (DeleteRole s r).2.permissions = s.permissions ∧
    (DeleteRole s r).2.userRoles = s.userRoles ∧
    (DeleteRole s r).2.rolePermissions =
      s.rolePermissions.filter (fun rp => rp.RoleID != role.ID) ∧
    (DeleteRole s r).2.roles = s.roles.filter (fun q => q.Name != r) := by
  obtain ⟨r0, he, hid, _, _⟩ := firstRole_of_min s r role hmem hname hmin
  have h1 := DeleteRole_free s r r0 he (by rw [hid]; exact hfree)
  rw [h1, hid]
  refine ⟨rfl, ?_, ?_, rfl, rfl, ?_, ?_⟩
  · intro q hq
    simp only [Delete, List.mem_filter] at hq
    simpa using hq.2
  · intro rp hrp
    simp only [Delete, List.mem_filter] at hrp
    simpa using hrp.2
  · simp only [Delete]
    congr 1
  · simp only [Delete]
    congr 1

/-- The witness of C4: `role-b` of the example store, held by nobody. -/
theorem DeleteRole_removes_witness :
    (DeleteRole demoStore "role-b").1 = none ∧
    (∀ q ∈ (DeleteRole demoStore "role-b").2.roles, q.Name ≠ "role-b") ∧
    (∀ rp ∈ (DeleteRole demoStore "role-b").2.rolePermissions,
      rp.RoleID ≠ 2) ∧
    (DeleteRole demoStore "role-b").2.permissions = demoStore.permissions ∧
    (DeleteRole demoStore "role-b").2.userRoles = demoStore.userRoles ∧
    (DeleteRole demoStore "role-b").2.rolePermissions =
      demoStore.rolePermissions.filter (fun rp => rp.RoleID != 2) ∧
    (DeleteRole demoStore "role-b").2.roles =
      demoStore.roles.filter (fun q => q.Name != "role-b") :=
  DeleteRole_removes demoStore "role-b" ⟨2, "role-b"⟩ (by decide) rfl
    (by decide) (by decide)

/-- C5, on a run with the user id `2 ^ 63`: the calls `CreateRole "role-a"`,
`AssignRole (2 ^ 63) "role-a"`, `DeleteRole "role-a"` from the empty store
leave a store with no role and one `user_roles` row, which references the
deleted role: an orphaned binding row.  The claim asks that no reachable
store holds one. -/
theorem reachable_orphan_highbit :
    run [Op.createRole "role-a", Op.assignRole (2 ^ 63) "role-a",
      Op.deleteRole "role-a"] Store.empty =
      { roles := [], permissions := [], rolePermissions := [],
        userRoles := [⟨1, 2 ^ 63, 1⟩] } ∧
    ¬ noOrphans (run [Op.createRole "role-a", Op.assignRole (2 ^ 63) "role-a",
      Op.deleteRole "role-a"] Store.empty) := by
  decide

/-- C6: in a store with no role named `n`, one or more consecutive calls
`CreateRole n` all return no error and leave exactly one role row named `n`:
a call on a store that has the name changes nothing.  The same holds for
`CreatePermission` and permission rows. -/
theorem Create_idempotent (s : Store) (n : String) (k : Nat) :
    (∀ t : Store, (CreateRole t n).1 = none) ∧
    ((∀ q ∈ s.roles, q.Name ≠ n) →
      ((fun t => (CreateRole t n).2)^[k + 1] s).roles.countP
        (fun q => q.Name == n) = 1) ∧
    (∀ t : Store, (∃ q ∈ t.roles, q.Name = n) → (CreateRole t n).2 = t) ∧
    (∀ t : Store, (CreatePermission t n).1 = none) ∧
    ((∀ q ∈ s.permissions, q.Name ≠ n) →
      ((fun t => (CreatePermission t n).2)^[k + 1] s).permissions.countP
        (fun q => q.Name == n) = 1) ∧
    (∀ t : Store, (∃ q ∈ t.permissions, q.Name = n) →
      (CreatePermission t n).2 = t) := by
  have hfixR : ∀ t : Store, (∃ q ∈ t.roles, q.Name = n) →
      (CreateRole t n).2 = t := by
    intro t ht
    rcases CreateRole_eq t n with ⟨hno, _⟩ | ⟨_, he⟩
    · obtain ⟨q, hq, hn⟩ := ht
      exact absurd hn (hno q hq)
    · rw [he]
  have hfixP : ∀ t : Store, (∃ q ∈ t.permissions, q.Name = n) →
      (CreatePermission t n).2 = t := by
    intro t ht
    rcases CreatePermission_eq t n with ⟨hno, _⟩ | ⟨_, he⟩
    · obtain ⟨q, hq, hn⟩ := ht
      exact absurd hn (hno q hq)
    · rw [he]
  refine ⟨?_, ?_, hfixR, ?_, ?_, hfixP⟩
  · intro t
    rcases CreateRole_eq t n with ⟨_, he⟩ | ⟨_, he⟩ <;> rw [he]
  · intro hno
    rcases CreateRole_eq s n with ⟨_, he⟩ | ⟨⟨q, hq, hn⟩, _⟩
    · have hfix : (CreateRole (CreateRole s n).2 n).2 = (CreateRole s n).2 := by
        apply hfixR
        rw [he]
        exact ⟨⟨nextID Role.ID s.roles, n⟩, by simp, rfl⟩
      rw [Function.iterate_succ_apply,
        Function.iterate_fixed (f := fun t => (CreateRole t n).2) hfix k, he]
      have hzero : s.roles.countP (fun q => q.Name == n) = 0 := by
        rw [List.countP_eq_zero]
        intro q hq
        simp [hno q hq]
      simp [List.countP_append, hzero]
    · exact absurd hn (hno q hq)
  · intro t
    rcases CreatePermission_eq t n with ⟨_, he⟩ | ⟨_, he⟩ <;> rw [he]
  · intro hno
    rcases CreatePermission_eq s n with ⟨_, he⟩ | ⟨⟨q, hq, hn⟩, _⟩
    · have hfix : (CreatePermission (CreatePermission s n).2 n).2 =
          (CreatePermission s n).2 := by
        apply hfixP
        rw [he]
        exact ⟨⟨nextID Permission.ID s.permissions, n⟩, by simp, rfl⟩
      rw [Function.iterate_succ_apply,
        Function.iterate_fixed (f := fun t => (CreatePermission t n).2) hfix k,
        he]
      have hzero : s.permissions.countP (fun q => q.Name == n) = 0 := by
        rw [List.countP_eq_zero]
        intro q hq
        simp [hno q hq]
      simp [List.countP_append, hzero]
    · exact absurd hn (hno q hq)

/-- The witness of C6: four calls `CreateRole "role-c"` and four calls
`CreatePermission "role-c"` on the example store. -/
theorem Create_idempotent_witness :
    ((fun t => (CreateRole t "role-c").2)^[3 + 1] demoStore).roles.countP
        (fun q => q.Name == "role-c") = 1 ∧
    (CreateRole demoStore "role-a").2 = demoStore ∧
    ((fun t => (CreatePermission t "role-c").2)^[3 + 1]
        demoStore).permissions.countP (fun q => q.Name == "role-c") = 1 :=
  ⟨(Create_idempotent demoStore "role-c" 3).2.1 (by decide),
   (Create_idempotent demoStore "role-a" 0).2.2.1 demoStore (by decide),
   (Create_idempotent demoStore "role-c" 3).2.2.2.2.1 (by decide)⟩

/-- C7: `AssignPermissions r ps` returns `ErrRoleNotFound` when no role is
named `r`, whatever `ps` holds, and `ErrPermissionNotFound` when `r` exists
and some name in `ps` is not an existing permission; in both cases the store
is unchanged, so no `role_permissions` row is created. -/
theorem AssignPermissions_guards (s : Store) (r : String) (ps : List String) :
    ((∀ q ∈ s.roles, q.Name ≠ r) →
      AssignPermissions s r ps = (some Error.ErrRoleNotFound, s)) ∧
    ((∃ q ∈ s.roles, q.Name = r) →
      (∃ n ∈ ps, ∀ q ∈ s.permissions, q.Name ≠ n) →
      AssignPermissions s r ps = (some Error.ErrPermissionNotFound, s)) := by
  constructor
  · intro hno
    rcases firstRole_cases s r with ⟨_, he⟩ | ⟨q, _, hq, hn, _⟩
    · exact AssignPermissions_notFound s r ps he
    · exact absurd hn (hno q hq)
  · intro hr hps
    obtain ⟨role, he, _⟩ := firstRole_found s r hr
    rw [AssignPermissions_found s r ps role he, collectPerms_none s ps [] hps]

/-- The witness of C7: on the example store, a missing role with a missing
permission, and an existing role with one known and one missing permission. -/
theorem AssignPermissions_guards_witness :
    AssignPermissions demoStore "role-aa" ["permission-c", "permission-aa"] =
      (some Error.ErrRoleNotFound, demoStore) ∧
    AssignPermissions demoStore "role-a" ["permission-c", "permission-aa"] =
      (some Error.ErrPermissionNotFound, demoStore) :=
  ⟨(AssignPermissions_guards demoStore "role-aa"
      ["permission-c", "permission-aa"]).1 (by decide),
   (AssignPermissions_guards demoStore "role-a"
      ["permission-c", "permission-aa"]).2 (by decide) (by decide)⟩

/-- C8: when role `r` and every permission named in `ps` exist and no
(role, permission) pair is bound twice, `AssignPermissions r ps` returns no
error and afterwards each permission named in `ps` is bound to `r` by exactly
one `role_permissions` row, whether `ps` repeats a name or names a permission
already bound; the rows that existed are kept, the other tables are
unchanged, and every added row binds `r` to a permission named in `ps`.
Here `role` is the row of `r` and `perm` the row of a name: the row of that
name with the smallest primary key. -/
theorem AssignPermissions_binds (s : Store) (r : String) (ps : List String)
    (role : Role) (hmem : role ∈ s.roles) (hname : role.Name = r)
    (hmin : ∀ q ∈ s.roles, q.Name = r → role.ID ≤ q.ID)
    (hps : ∀ n ∈ ps, ∃ q ∈ s.permissions, q.Name = n)
    (huniq : (s.rolePermissions.map
      (fun rp => (rp.RoleID, rp.PermissionID))).Nodup) :
    (AssignPermissions s r ps).1 = none ∧
    (∀ perm ∈ s.permissions, perm.Name ∈ ps →
      (∀ q ∈ s.permissions, q.Name = perm.Name → perm.ID ≤ q.ID) →
      (AssignPermissions s r ps).2.rolePermissions.countP
        (fun rp => rp.RoleID == role.ID && rp.PermissionID == perm.ID) = 1) ∧
    ∃ added : List RolePermission,
      (AssignPermissions s r ps).2 =
        { s with rolePermissions := s.rolePermissions ++ added } ∧
      ∀ rp ∈ added, rp.RoleID = role.ID ∧
        ∃ perm ∈ s.permissions, perm.Name ∈ ps ∧
          rp.PermissionID = perm.ID := by
  obtain ⟨r0, he, hid, _, _⟩ := firstRole_of_min s r role hmem hname hmin
  have hcol := collectPerms_some s ps [] hps
  obtain ⟨added, h1, h2, h3⟩ := insertRolePerms_spec r0
    (ps.map (fun n => (firstPermission s n).value)) s
  have hval : AssignPermissions s r ps =
      (none, { s with rolePermissions := s.rolePermissions ++ added }) := by
    rw [AssignPermissions_found s r ps r0 he, hcol]
    simpa using h1
  rw [hid] at h2 h3
  refine ⟨by rw [hval], ?_, added, by rw [hval], ?_⟩
  · intro perm hperm hin hpmin
    rw [hval]
    obtain ⟨p0, hp0, hp0id, _, _⟩ :=
      firstPermission_of_min s perm.Name perm hperm rfl hpmin
    have hlisted : ∃ q ∈ ps.map (fun n => (firstPermission s n).value),
        q.ID = perm.ID := by
      refine ⟨p0, ?_, hp0id⟩
      rw [List.mem_map]
      exact ⟨perm.Name, hin, by rw [hp0]⟩
    have hcount := h3 perm.ID
    by_cases hz : s.rolePermissions.countP
        (fun rp => rp.RoleID == role.ID && rp.PermissionID == perm.ID) = 0
    · rw [if_pos ⟨hz, hlisted⟩] at hcount
      exact hcount
    · rw [if_neg (fun h => hz h.1)] at hcount
      have hle := countP_pair_le_one s.rolePermissions huniq role.ID perm.ID
      show (s.rolePermissions ++ added).countP
        (fun rp => rp.RoleID == role.ID && rp.PermissionID == perm.ID) = 1
      omega
  · intro rp hrp
    obtain ⟨hr, q, hq, hpid⟩ := h2 rp hrp
    rw [List.mem_map] at hq
    obtain ⟨n, hn, hqn⟩ := hq
    obtain ⟨p1, hp1, hp1mem, hp1name, _⟩ := firstPermission_found s n (hps n hn)
    have hq1 : q = p1 := by rw [← hqn, hp1]
    refine ⟨hr, p1, hp1mem, ?_, ?_⟩
    · rw [hp1name]; exact hn
    · rw [hpid, hq1]

/-- The witness of C8: `role-b` of the example store, already bound to
`permission-a`, is given `permission-b`, `permission-a` and `permission-b`
again. -/
theorem AssignPermissions_binds_witness :
    (AssignPermissions demoStore "role-b"
      ["permission-b", "permission-a", "permission-b"]).1 = none ∧
    (∀ perm ∈ demoStore.permissions,
      perm.Name ∈ ["permission-b", "permission-a", "permission-b"] →
      (∀ q ∈ demoStore.permissions, q.Name = perm.Name → perm.ID ≤ q.ID) →
      (AssignPermissions demoStore "role-b"
        ["permission-b", "permission-a", "permission-b"]).2.rolePermissions.countP
        (fun rp => rp.RoleID == 2 && rp.PermissionID == perm.ID) = 1) ∧
    ∃ added : List RolePermission,
      (AssignPermissions demoStore "role-b"
        ["permission-b", "permission-a", "permission-b"]).2 =
        { demoStore with
          rolePermissions := demoStore.rolePermissions ++ added } ∧
      ∀ rp ∈ added, rp.RoleID = 2 ∧
        ∃ perm ∈ demoStore.permissions,
          perm.Name ∈ ["permission-b", "permission-a", "permission-b"] ∧
          rp.PermissionID = perm.ID :=
  AssignPermissions_binds demoStore "role-b"
    ["permission-b", "permission-a", "permission-b"] ⟨2, "role-b"⟩
    (by decide) rfl (by decide) (by decide) (by decide)

/-- C10: `DeletePermission p` returns `ErrPermissionNotFound` when no
permission is named `p`, and `ErrPermissionInUse` when it exists and some
`role_permissions` row references it, leaving the store unchanged in both
cases; otherwise it returns no error and removes the permission rows named
`p` and nothing else.  Here `perm` is the row of `p`: the permission named
`p` with the smallest primary key. -/
theorem DeletePermission_contract (s : Store) (p : String) :
    ((∀ q ∈ s.permissions, q.Name ≠ p) →
      DeletePermission s p = (some Error.ErrPermissionNotFound, s)) ∧
    (∀ perm ∈ s.permissions, perm.Name = p →
      (∀ q ∈ s.permissions, q.Name = p → perm.ID ≤ q.ID) →
      ((∃ rp ∈ s.rolePermissions, rp.PermissionID = perm.ID) →
        DeletePermission s p = (some Error.ErrPermissionInUse, s)) ∧
      ((∀ rp ∈ s.rolePermissions, rp.PermissionID ≠ perm.ID) →
        DeletePermission s p = (none, { s with
          permissions := s.permissions.filter (fun q => q.Name != p) }))) := by
  constructor
  · intro hno
    rcases firstPermission_cases s p with ⟨_, he⟩ | ⟨q, _, hq, hn, _⟩
    · exact DeletePermission_notFound s p he
    · exact absurd hn (hno q hq)
  · intro perm hmem hname hmin
    obtain ⟨p0, he, hid, _, _⟩ :=
      firstPermission_of_min s p perm hmem hname hmin
    constructor
    · intro hheld
      exact DeletePermission_inUse s p p0 he (by rw [hid]; exact hheld)
    · intro hfree
      rw [DeletePermission_free s p p0 he (by rw [hid]; exact hfree)]
      simp only [Delete]
      congr 2

/-- The witness of C10: on the example store `permission-aa` is missing,
`permission-a` is granted by `role-a`, and `permission-c` by no role. -/
theorem DeletePermission_contract_witness :
    DeletePermission demoStore "permission-aa" =
      (some Error.ErrPermissionNotFound, demoStore) ∧
    DeletePermission demoStore "permission-a" =
      (some Error.ErrPermissionInUse, demoStore) ∧
    DeletePermission demoStore "permission-c" = (none, { demoStore with
      permissions := demoStore.permissions.filter
        (fun q => q.Name != "permission-c") }) :=
  ⟨(DeletePermission_contract demoStore "permission-aa").1 (by decide),
   ((DeletePermission_contract demoStore "permission-a").2
      ⟨1, "permission-a"⟩ (by decide) rfl (by decide)).1 (by decide),
   ((DeletePermission_contract demoStore "permission-c").2
      ⟨3, "permission-c"⟩ (by decide) rfl (by decide)).2 (by decide)⟩

/-- C11: `CheckRolePermission r p` returns `(false, ErrRoleNotFound)` when no
role is named `r`, whatever `p` is, and `(false, ErrPermissionNotFound)` when
`r` exists and no permission is named `p`; otherwise it returns no error,
and true exactly when a `role_permissions` row binds the id of `r` to the id
of `p`.  Here `role` and `perm` are the rows of `r` and `p`: the row of that
name with the smallest primary key. -/
theorem CheckRolePermission_contract (s : Store) (r p : String) :
    ((∀ q ∈ s.roles, q.Name ≠ r) →
      CheckRolePermission s r p = (false, some Error.ErrRoleNotFound)) ∧
    ((∃ q ∈ s.roles, q.Name = r) → (∀ q ∈ s.permissions, q.Name ≠ p) →
      CheckRolePermission s r p = (false, some Error.ErrPermissionNotFound)) ∧
    (∀ role ∈ s.roles, role.Name = r →
      (∀ q ∈ s.roles, q.Name = r → role.ID ≤ q.ID) →
      ∀ perm ∈ s.permissions, perm.Name = p →
      (∀ q ∈ s.permissions, q.Name = p → perm.ID ≤ q.ID) →
      (CheckRolePermission s r p).2 = none ∧
      ((CheckRolePermission s r p).1 = true ↔
        ∃ rp ∈ s.rolePermissions,
          rp.RoleID = role.ID ∧ rp.PermissionID = perm.ID)) := by
  refine ⟨?_, ?_, ?_⟩
  · intro hno
    rcases firstRole_cases s r with ⟨_, he⟩ | ⟨q, _, hq, hn, _⟩
    · exact CheckRolePermission_roleNotFound s r p he
    · exact absurd hn (hno q hq)
  · intro hr hno
    obtain ⟨r0, he, _⟩ := firstRole_found s r hr
    rcases firstPermission_cases s p with ⟨_, hp⟩ | ⟨q, _, hq, hn, _⟩
    · exact CheckRolePermission_permNotFound s r p r0 he hp
    · exact absurd hn (hno q hq)
  · intro role hmem hname hmin perm hpmem hpname hpmin
    obtain ⟨r0, he, hid, _, _⟩ := firstRole_of_min s r role hmem hname hmin
    obtain ⟨p0, hp, hpid, _, _⟩ :=
      firstPermission_of_min s p perm hpmem hpname hpmin
    rw [← hid, ← hpid]
    by_cases hb : ∃ rp ∈ s.rolePermissions,
        rp.RoleID = r0.ID ∧ rp.PermissionID = p0.ID
    · rw [CheckRolePermission_bound s r p r0 p0 he hp hb]
      exact ⟨rfl, fun _ => hb, fun _ => rfl⟩
    · have hfree : ∀ rp ∈ s.rolePermissions,
          rp.RoleID = r0.ID → rp.PermissionID ≠ p0.ID :=
        fun rp hrp hr hq => hb ⟨rp, hrp, hr, hq⟩
      rw [CheckRolePermission_unbound s r p r0 p0 he hp hfree]
      refine ⟨rfl, ?_, fun hex => absurd hex hb⟩
      intro h
      cases h

/-- The witness of C11: on the example store, a missing role with a missing
permission, `role-a` with a missing permission, and `role-a` with
`permission-b`. -/
theorem CheckRolePermission_contract_witness :
    CheckRolePermission demoStore "role-aa" "permission-aa" =
      (false, some Error.ErrRoleNotFound) ∧
    CheckRolePermission demoStore "role-a" "permission-aa" =
      (false, some Error.ErrPermissionNotFound) ∧
    ((CheckRolePermission demoStore "role-a" "permission-b").2 = none ∧
      ((CheckRolePermission demoStore "role-a" "permission-b").1 = true ↔
        ∃ rp ∈ demoStore.rolePermissions,
          rp.RoleID = 1 ∧ rp.PermissionID = 2)) :=
  ⟨(CheckRolePermission_contract demoStore "role-aa" "permission-aa").1
      (by decide),
   (CheckRolePermission_contract demoStore "role-a" "permission-aa").2.1
      (by decide) (by decide),
   (CheckRolePermission_contract demoStore "role-a" "permission-b").2.2
      ⟨1, "role-a"⟩ (by decide) rfl (by decide)
      ⟨2, "permission-b"⟩ (by decide) rfl (by decide)⟩

/-- C12: `CheckRole u r` returns `(false, ErrRoleNotFound)` exactly when no
role is named `r`; otherwise it returns no error, and true exactly when a
`user_roles` row `(u, id of r)` exists.  So it is true after a successful
`AssignRole u r` and false for a user with no binding.  Here `role` is the
row of `r`: the role named `r` with the smallest primary key. -/
theorem CheckRole_contract (s : Store) (u : Nat) (r : String) :
    (CheckRole s u r = (false, some Error.ErrRoleNotFound) ↔
      ∀ q ∈ s.roles, q.Name ≠ r) ∧
    (∀ role ∈ s.roles, role.Name = r →
      (∀ q ∈ s.roles, q.Name = r → role.ID ≤ q.ID) →
      (CheckRole s u r).2 = none ∧
      ((CheckRole s u r).1 = true ↔
        ∃ ur ∈ s.userRoles, ur.UserID = u ∧ ur.RoleID = role.ID)) ∧
    ((AssignRole s u r).1 = none →
      CheckRole (AssignRole s u r).2 u r = (true, none)) ∧
    ((∀ ur ∈ s.userRoles, ur.UserID ≠ u) → (CheckRole s u r).1 = false) := by
  refine ⟨?_, ?_, ?_, ?_⟩
  · constructor
    · intro hval q hq hn
      obtain ⟨r0, he, _⟩ := firstRole_found s r ⟨q, hq, hn⟩
      have herr := (CheckRole_found s u r r0 he).1
      rw [hval] at herr
      cases herr
    · intro hno
      rcases firstRole_cases s r with ⟨_, he⟩ | ⟨q, _, hq, hn, _⟩
      · exact CheckRole_notFound s u r he
      · exact absurd hn (hno q hq)
  · intro role hmem hname hmin
    obtain ⟨r0, he, hid, _, _⟩ := firstRole_of_min s r role hmem hname hmin
    rw [← hid]
    exact CheckRole_found s u r r0 he
  · intro hok
    rcases firstRole_cases s r with ⟨_, he⟩ | ⟨r0, he, _, _, _⟩
    · rw [AssignRole_notFound s u r he] at hok
      cases hok
    · by_cases hheld : ∃ ur ∈ s.userRoles, ur.UserID = u ∧ ur.RoleID = r0.ID
      · by_cases hsmall : u < 2 ^ 63
        · rw [AssignRole_held s u r r0 he hsmall hheld] at hok
          cases hok
        · have h1 := AssignRole_unreadable s u r r0 he (not_lt.1 hsmall) hheld
          have he2 : firstRole (AssignRole s u r).2 r = ⟨r0, none⟩ := by
            rw [h1]; exact he
          apply CheckRole_held (AssignRole s u r).2 u r r0 he2
          rw [h1]
          exact ⟨⟨nextID UserRole.ID s.userRoles, u, r0.ID⟩, by simp, rfl, rfl⟩
      · have hfree : ∀ ur ∈ s.userRoles, ur.UserID = u → ur.RoleID ≠ r0.ID :=
          fun ur hur hu hr => hheld ⟨ur, hur, hu, hr⟩
        have h1 := AssignRole_fresh s u r r0 he hfree
        have he2 : firstRole (AssignRole s u r).2 r = ⟨r0, none⟩ := by
          rw [h1]; exact he
        apply CheckRole_held (AssignRole s u r).2 u r r0 he2
        rw [h1]
        exact ⟨⟨nextID UserRole.ID s.userRoles, u, r0.ID⟩, by simp, rfl, rfl⟩
  · intro hnone
    rcases firstRole_cases s r with ⟨_, he⟩ | ⟨r0, he, _, _, _⟩
    · rw [CheckRole_notFound s u r he]
    · rw [CheckRole_free s u r r0 he
        (fun ur hur hu _ => absurd hu (hnone ur hur))]

/-- The witness of C12: on the example store `role-aa` is missing, user 1
holds `role-a`, user 2 is given `role-a`, and user 7 holds nothing. -/
theorem CheckRole_contract_witness :
    CheckRole demoStore 1 "role-aa" = (false, some Error.ErrRoleNotFound) ∧
    ((CheckRole demoStore 1 "role-a").2 = none ∧
      ((CheckRole demoStore 1 "role-a").1 = true ↔
        ∃ ur ∈ demoStore.userRoles, ur.UserID = 1 ∧ ur.RoleID = 1)) ∧
    CheckRole (AssignRole demoStore 2 "role-a").2 2 "role-a" = (true, none) ∧
    (CheckRole demoStore 7 "role-a").1 = false :=
  ⟨(CheckRole_contract demoStore 1 "role-aa").1.2 (by decide),
   (CheckRole_contract demoStore 1 "role-a").2.1 ⟨1, "role-a"⟩ (by decide) rfl
     (by decide),
   (CheckRole_contract demoStore 2 "role-a").2.2.1 (by decide),
   (CheckRole_contract demoStore 7 "role-a").2.2.2 (by decide)⟩

/-- C13: `RevokeRole u r` returns `ErrRoleNotFound` and changes nothing when
no role is named `r`.  When `r` exists it returns no error and removes the
`user_roles` rows `(u, id of r)` and nothing else: other users' rows, the
other roles of `u`, roles, permissions and `role_permissions` are unchanged;
it changes nothing when `u` does not hold `r`; and afterwards `CheckRole u r`
is false.  Here `role` is the row of `r`: the role named `r` with the
smallest primary key. -/
theorem RevokeRole_contract (s : Store) (u : Nat) (r : String) :
    ((∀ q ∈ s.roles, q.Name ≠ r) →
      RevokeRole s u r = (some Error.ErrRoleNotFound, s)) ∧
    (∀ role ∈ s.roles, role.Name = r →
      (∀ q ∈ s.roles, q.Name = r → role.ID ≤ q.ID) →
      RevokeRole s u r = (none, { s with
        userRoles := s.userRoles.filter
          (fun ur => !(ur.UserID == u && ur.RoleID == role.ID)) }) ∧
      ((∀ ur ∈ s.userRoles, ur.UserID = u → ur.RoleID ≠ role.ID) →
        RevokeRole s u r = (none, s)) ∧
      CheckRole (RevokeRole s u r).2 u r = (false, none)) := by
  constructor
  · intro hno
    rcases firstRole_cases s r with ⟨_, he⟩ | ⟨q, _, hq, hn, _⟩
    · exact RevokeRole_notFound s u r he
    · exact absurd hn (hno q hq)
  · intro role hmem hname hmin
    obtain ⟨r0, he, hid, _, _⟩ := firstRole_of_min s r role hmem hname hmin
    have h1 := RevokeRole_found s u r r0 he
    rw [hid] at h1
    simp only [Delete] at h1
    refine ⟨h1, ?_, ?_⟩
    · intro hfree
      rw [h1]
      have hall : s.userRoles.filter
          (fun ur => !(ur.UserID == u && ur.RoleID == role.ID)) =
          s.userRoles := by
        rw [List.filter_eq_self]
        intro ur hur
        by_cases hu : ur.UserID = u
        · simp [hu, hfree ur hur hu]
        · simp [hu]
      simp only [hall]
    · have he2 : firstRole (RevokeRole s u r).2 r = ⟨r0, none⟩ := by
        rw [h1]; exact he
      apply CheckRole_free (RevokeRole s u r).2 u r r0 he2
      intro ur hur hu hr
      rw [h1] at hur
      have hkeep := (List.mem_filter.1 hur).2
      rw [hu, hr, hid] at hkeep
      simp at hkeep

/-- The witness of C13: on the example store `role-aa` is missing, user 1
holds `role-a`, and user 2 does not. -/
theorem RevokeRole_contract_witness :
    RevokeRole demoStore 1 "role-aa" =
      (some Error.ErrRoleNotFound, demoStore) ∧
    (RevokeRole demoStore 1 "role-a" = (none, { demoStore with
        userRoles := demoStore.userRoles.filter
          (fun ur => !(ur.UserID == 1 && ur.RoleID == 1)) }) ∧
      ((∀ ur ∈ demoStore.userRoles, ur.UserID = 1 → ur.RoleID ≠ 1) →
        RevokeRole demoStore 1 "role-a" = (none, demoStore)) ∧
      CheckRole (RevokeRole demoStore 1 "role-a").2 1 "role-a" =
        (false, none)) ∧
    RevokeRole demoStore 2 "role-a" = (none, demoStore) :=
  ⟨(RevokeRole_contract demoStore 1 "role-aa").1 (by decide),
   (RevokeRole_contract demoStore 1 "role-a").2 ⟨1, "role-a"⟩ (by decide) rfl
     (by decide),
   ((RevokeRole_contract demoStore 2 "role-a").2 ⟨1, "role-a"⟩ (by decide) rfl
     (by decide)).2.1 (by decide)⟩

/-- C14: `RevokeRolePermission r p` returns `ErrRoleNotFound` when no role is
named `r` and `ErrPermissionNotFound` when `r` exists and no permission is
named `p`, leaving the store unchanged in both cases.  When both exist it
returns no error and removes the `role_permissions` rows that bind `r` to
`p` and no other row, so the other permissions of `r` stay bound and
`CheckRolePermission r p` is false afterwards.  Here `role` and `perm` are
the rows of `r` and `p`: the row of that name with the smallest primary
key. -/
theorem RevokeRolePermission_contract (s : Store) (r p : String) :
    ((∀ q ∈ s.roles, q.Name ≠ r) →
      RevokeRolePermission s r p = (some Error.ErrRoleNotFound, s)) ∧
    ((∃ q ∈ s.roles, q.Name = r) → (∀ q ∈ s.permissions, q.Name ≠ p) →
      RevokeRolePermission s r p = (some Error.ErrPermissionNotFound, s)) ∧
    (∀ role ∈ s.roles, role.Name = r →
      (∀ q ∈ s.roles, q.Name = r → role.ID ≤ q.ID) →
      ∀ perm ∈ s.permissions, perm.Name = p →
      (∀ q ∈ s.permissions, q.Name = p → perm.ID ≤ q.ID) →
      RevokeRolePermission s r p = (none, { s with
        rolePermissions := s.rolePermissions.filter
          (fun rp => !(rp.RoleID == role.ID && rp.PermissionID == perm.ID)) }) ∧
      (∀ rp ∈ s.rolePermissions, rp.RoleID = role.ID →
        rp.PermissionID ≠ perm.ID →
        rp ∈ (RevokeRolePermission s r p).2.rolePermissions) ∧
      CheckRolePermission (RevokeRolePermission s r p).2 r p =
        (false, none)) := by
  refine ⟨?_, ?_, ?_⟩
  · intro hno
    rcases firstRole_cases s r with ⟨_, he⟩ | ⟨q, _, hq, hn, _⟩
    · exact RevokeRolePermission_roleNotFound s r p he
    · exact absurd hn (hno q hq)
  · intro hr hno
    obtain ⟨r0, he, _⟩ := firstRole_found s r hr
    rcases firstPermission_cases s p with ⟨_, hp⟩ | ⟨q, _, hq, hn, _⟩
    · exact RevokeRolePermission_permNotFound s r p r0 he hp
    · exact absurd hn (hno q hq)
  · intro role hmem hname hmin perm hpmem hpname hpmin
    obtain ⟨r0, he, hid, _, _⟩ := firstRole_of_min s r role hmem hname hmin
    obtain ⟨p0, hp, hpid, _, _⟩ :=
      firstPermission_of_min s p perm hpmem hpname hpmin
    have h1 := RevokeRolePermission_found s r p r0 p0 he hp
    rw [hid, hpid] at h1
    simp only [Delete] at h1
    refine ⟨h1, ?_, ?_⟩
    · intro rp hrp _ hne
      rw [h1]
      refine List.mem_filter.2 ⟨hrp, ?_⟩
      simp [hne]
    · have he2 : firstRole (RevokeRolePermission s r p).2 r = ⟨r0, none⟩ := by
        rw [h1]; exact he
      have hp2 : firstPermission (RevokeRolePermission s r p).2 p =
          ⟨p0, none⟩ := by
        rw [h1]; exact hp
      apply CheckRolePermission_unbound (RevokeRolePermission s r p).2 r p
        r0 p0 he2 hp2
      intro rp hrp hr hq
      rw [h1] at hrp
      have hkeep := (List.mem_filter.1 hrp).2
      rw [hr, hq, hid, hpid] at hkeep
      simp at hkeep

/-- The witness of C14: on the example store, a missing role, `role-a` with
a missing permission, and `role-a` with `permission-a`. -/
theorem RevokeRolePermission_contract_witness :
    RevokeRolePermission demoStore "role-aa" "permission-a" =
      (some Error.ErrRoleNotFound, demoStore) ∧
    RevokeRolePermission demoStore "role-a" "permission-aa" =
      (some Error.ErrPermissionNotFound, demoStore) ∧
    (RevokeRolePermission demoStore "role-a" "permission-a" =
      (none, { demoStore with
        rolePermissions := demoStore.rolePermissions.filter
          (fun rp => !(rp.RoleID == 1 && rp.PermissionID == 1)) }) ∧
      (∀ rp ∈ demoStore.rolePermissions, rp.RoleID = 1 →
        rp.PermissionID ≠ 1 →
        rp ∈ (RevokeRolePermission demoStore "role-a"
          "permission-a").2.rolePermissions) ∧
      CheckRolePermission
        (RevokeRolePermission demoStore "role-a" "permission-a").2
        "role-a" "permission-a" = (false, none)) :=
  ⟨(RevokeRolePermission_contract demoStore "role-aa" "permission-a").1
      (by decide),
   (RevokeRolePermission_contract demoStore "role-a" "permission-aa").2.1
      (by decide) (by decide),
   (RevokeRolePermission_contract demoStore "role-a" "permission-a").2.2
      ⟨1, "role-a"⟩ (by decide) rfl (by decide)
      ⟨1, "permission-a"⟩ (by decide) rfl (by decide)⟩

/-- C16: for a user `u` that holds no role and a name `p` that no permission
carries, `CheckPermission u p` returns `(false, ErrPermissionNotFound)` and
`RevokePermission u p` returns `ErrPermissionNotFound`, the store unchanged:
the list query on `user_roles` reports no error, so the early return for a
user without roles is not taken and the permission lookup decides. -/
theorem noRoles_missingPermission (s : Store) (u : Nat) (p : String)
    (hnone : ∀ ur ∈ s.userRoles, ur.UserID ≠ u)
    (hp : ∀ q ∈ s.permissions, q.Name ≠ p) :
    (Find (fun ur : UserRole => ur.UserID == u) s.userRoles).value = [] ∧
    (Find (fun ur : UserRole => ur.UserID == u) s.userRoles).Error = none ∧
    CheckPermission s u p = (false, some Error.ErrPermissionNotFound) ∧
    RevokePermission s u p = (some Error.ErrPermissionNotFound, s) := by
  have hempty : (Find (fun ur : UserRole => ur.UserID == u)
      s.userRoles).value = [] := by
    simp only [Find]
    rw [List.filter_eq_nil_iff]
    intro ur hur
    simp [hnone ur hur]
  rcases firstPermission_cases s p with ⟨_, he⟩ | ⟨q, _, hq, hn, _⟩
  · exact ⟨hempty, rfl, CheckPermission_notFound s u p he,
      RevokePermission_notFound s u p he⟩
  · exact absurd hn (hp q hq)

/-- The witness of C16: user 7 of the example store holds no role and no
permission is named `permission-aa`. -/
theorem noRoles_missingPermission_witness :
    (Find (fun ur : UserRole => ur.UserID == 7) demoStore.userRoles).value =
      [] ∧
    (Find (fun ur : UserRole => ur.UserID == 7) demoStore.userRoles).Error =
      none ∧
    CheckPermission demoStore 7 "permission-aa" =
      (false, some Error.ErrPermissionNotFound) ∧
    RevokePermission demoStore 7 "permission-aa" =
      (some Error.ErrPermissionNotFound, demoStore) :=
  noRoles_missingPermission demoStore 7 "permission-aa" (by decide) (by decide)

end AuthorizationGo
